import Mathlib

/-!
# ChillHub front end: follower resolution and the post cache handlers

A shallow embedding of the data-handling code of
`frontend/src/pages/profile/ProfilePage.jsx` (`handleShowFollowers`,
`handleShowFollowing`) and of `frontend/src/components/common/Post.jsx`
(the success handlers of the like, comment and delete mutations), with the
properties the specification states about them.

JavaScript values are the JSON values the server sends, plus `undefined`.
Asynchronous code is embedded as a state-passing computation: state writes,
issued requests and console output are kept when an exception is thrown, and
`try`/`catch`/`finally` are combinators on such computations.
-/

namespace ChillHub

/-! ## JavaScript values -/

/-- A JavaScript string: its sequence of UTF-16 code units. -/
abbrev JsString := List Nat

/-- The code units of a source literal (all literals of the program are ASCII). -/
def lit (s : String) : JsString := s.toList.map Char.toNat

/-- A safe integer: an integer of magnitude at most 2^53 - 1. A JavaScript number
holds every such integer exactly and prints it in plain decimal. -/
structure SafeInt where
  val : Int
  safe : -9007199254740991 ≤ val ∧ val ≤ 9007199254740991

/-- JSON values as JavaScript sees them after `res.json()`, plus `undefined`.
The numbers are the safe integers; fractions and numbers of larger magnitude
are not among the values modelled. -/
inductive JsVal where
  | undefined
  | null
  | bool (b : Bool)
  | num (n : SafeInt)
  | str (s : JsString)
  | arr (items : List JsVal)
  | obj (props : List (JsString × JsVal))

/-- The results of the `typeof` operator on the values above. -/
inductive TypeTag where
  | undefined
  | object
  | boolean
  | number
  | string
  deriving DecidableEq, Repr

/-- The `typeof v` operator: `null`, arrays and objects are all "object". -/
def typeof : JsVal → TypeTag
  | .undefined => .undefined
  | .null => .object
  | .bool _ => .boolean
  | .num _ => .number
  | .str _ => .string
  | .arr _ => .object
  | .obj _ => .object

/-- The truthiness test of `if (v)`, `!v` and `v && ...`. -/
def truthy : JsVal → Bool
  | .undefined => false
  | .null => false
  | .bool b => b
  | .num n => n.val != 0
  | .str s => !s.isEmpty
  | .arr _ => true
  | .obj _ => true

/-- The test `Array.isArray(v)`. -/
def isArray : JsVal → Bool
  | .arr _ => true
  | _ => false

/-- The errors thrown by the code and by the built-ins it calls. -/
inductive JsError where
  | typeError (message : JsString)
  | error (message : JsString)
  | parseError
  | networkError

/-- Decimal digits of a natural number, as code units. -/
def natToStr (n : Nat) : JsString := (Nat.toDigits 10 n).map Char.toNat

/-- The decimal numeral of an integer. It is the string form of a JavaScript
number for the integers it is applied to: the safe integers, and the counts
below 60 that `getRelativeTime` prints. -/
def intToStr : Int → JsString
  | .ofNat n => natToStr n
  | .negSucc n => lit "-" ++ natToStr (n + 1)

/-- Whether a property list has an own property of the given name. -/
def hasKey (props : List (JsString × JsVal)) (key : JsString) : Bool :=
  props.any fun kv => decide (kv.1 = key)

/-- String conversion of an object parsed from JSON: `Object.prototype.toString`
gives "[object Object]", unless the object has an own property `toString`, which
as a JSON value is not callable; then the conversion falls back on `valueOf`,
gets the object itself, and throws a TypeError. -/
def objectToStr (props : List (JsString × JsVal)) : Except JsError JsString :=
  if hasKey props (lit "toString") then
    .error (.typeError (lit "Cannot convert object to primitive value"))
  else .ok (lit "[object Object]")

mutual
/-- String conversion, as a template literal applies it to an interpolated value. -/
def JsVal.toStr : JsVal → Except JsError JsString
  | .undefined => .ok (lit "undefined")
  | .null => .ok (lit "null")
  | .bool true => .ok (lit "true")
  | .bool false => .ok (lit "false")
  | .num n => .ok (intToStr n.val)
  | .str s => .ok s
  | .arr items => JsVal.joinStr items
  | .obj props => objectToStr props
/-- The body of `Array.prototype.join(",")`: nullish elements give the empty
string, and the conversion of an element may throw. -/
def JsVal.joinStr : List JsVal → Except JsError JsString
  | [] => .ok []
  | [v] => JsVal.elemStr v
  | v :: w :: rest =>
    match JsVal.elemStr v with
    | .error e => .error e
    | .ok first =>
      match JsVal.joinStr (w :: rest) with
      | .error e => .error e
      | .ok others => .ok (first ++ lit "," ++ others)
/-- The string an array element contributes to `join`. -/
def JsVal.elemStr : JsVal → Except JsError JsString
  | .undefined => .ok []
  | .null => .ok []
  | .bool true => .ok (lit "true")
  | .bool false => .ok (lit "false")
  | .num n => .ok (intToStr n.val)
  | .str s => .ok s
  | .arr items => JsVal.joinStr items
  | .obj props => objectToStr props
end

/-- The call `s.substring(a, b)` on a string: both bounds are clamped to the
length and swapped when out of order. -/
def strSubstring (s : JsString) (a b : Nat) : JsString :=
  let a1 := min a s.length
  let b1 := min b s.length
  (s.drop (min a1 b1)).take (max a1 b1 - min a1 b1)

/-- The call `v.substring(a, b)` on any value: only strings have the method, so
on every other value the call throws a TypeError. -/
def substring (v : JsVal) (a b : Nat) : Except JsError JsString :=
  match v with
  | .str s => .ok (strSubstring s a b)
  | .undefined => .error (.typeError (lit "Cannot read properties of undefined"))
  | .null => .error (.typeError (lit "Cannot read properties of null"))
  | _ => .error (.typeError (lit "substring is not a function"))

/-- Property lookup in the property list of an object. -/
def lookupProp : List (JsString × JsVal) → JsString → JsVal
  | [], _ => .undefined
  | (k, v) :: rest, key => if k = key then v else lookupProp rest key

/-- Member access `v.key` for a data property name that no built-in prototype
defines (`followers`, `following`, `_id`, `likes`, ...): the own property of an
object, `undefined` on arrays and primitives, a TypeError on `null` and
`undefined`. -/
def member (v : JsVal) (key : JsString) : Except JsError JsVal :=
  match v with
  | .undefined => .error (.typeError (lit "Cannot read properties of undefined"))
  | .null => .error (.typeError (lit "Cannot read properties of null"))
  | .obj props => .ok (lookupProp props key)
  | _ => .ok .undefined

/-- The elements of an array value (no elements for a value that is no array). -/
def arrayItems : JsVal → List JsVal
  | .arr items => items
  | _ => []

/-- Index access `items[i]` in an array: `undefined` past the end. -/
def itemAt (items : List JsVal) (i : Nat) : JsVal :=
  (items[i]?).getD .undefined

/-! ## Effects: page state, requests, console -/

/-- What a request to the server ends in: `fetch` rejects, or a response arrives
with its `ok` flag and its body, `none` when the body is not JSON (then
`res.json()` rejects). -/
inductive FetchResult where
  | rejected
  | response (ok : Bool) (body : Option JsVal)

/-- The React state of `ProfilePage` that the two handlers write. -/
structure PageState where
  showFollowersModal : Bool
  showFollowingModal : Bool
  followersData : List JsVal
  followingData : List JsVal
  isLoadingFollowers : Bool
  isLoadingFollowing : Bool

/-- The state a handler runs in: the page state, the URLs requested so far (in
the order the requests were issued) and the labels written by `console.error`. -/
structure World where
  page : PageState
  requests : List JsString
  console : List JsString

/-- A computation with effects on a state of type `σ`: it ends in a value or a
thrown error, and the effects made before a throw stay. -/
def Eff (σ : Type) (α : Type) : Type := σ → Except JsError α × σ

namespace Eff

/-- Returning a value. -/
def ret {σ α : Type} (a : α) : Eff σ α := fun w => (.ok a, w)

/-- Sequencing: a throw skips the rest. -/
def andThen {σ α β : Type} (m : Eff σ α) (f : α → Eff σ β) : Eff σ β := fun w =>
  match m w with
  | (.ok a, w1) => f a w1
  | (.error e, w1) => (.error e, w1)

instance {σ : Type} : Monad (Eff σ) where
  pure := ret
  bind := andThen

/-- Lifting a computation without effects: `throw` or a plain value. -/
def ofExcept {σ α : Type} (r : Except JsError α) : Eff σ α := fun w => (r, w)

/-- The statement `try body catch (e) handler`. -/
def tryCatch {σ α : Type} (body : Eff σ α) (handler : JsError → Eff σ α) : Eff σ α := fun w =>
  match body w with
  | (.ok a, w1) => (.ok a, w1)
  | (.error e, w1) => handler e w1

/-- The statement `try body finally fin`: `fin` runs on both exits, and the
outcome of the body stands unless `fin` throws. -/
def tryFinally {σ α : Type} (body : Eff σ α) (fin : Eff σ Unit) : Eff σ α := fun w =>
  match body w with
  | (r, w1) =>
    match fin w1 with
    | (.ok _, w2) => (r, w2)
    | (.error e, w2) => (.error e, w2)

end Eff

/-- The call `console.error(label, error)`. -/
def consoleError (label : JsString) : Eff World Unit := fun w =>
  (.ok (), { w with console := w.console ++ [label] })

/-- The call `fetch(url)` up to the point where it returns its promise. -/
def fetchCall (url : JsString) : Eff World Unit := fun w =>
  (.ok (), { w with requests := w.requests ++ [url] })

/-- The state setter `setShowFollowersModal`. -/
def setShowFollowersModal (b : Bool) : Eff World Unit := fun w =>
  (.ok (), { w with page := { w.page with showFollowersModal := b } })

/-- The state setter `setShowFollowingModal`. -/
def setShowFollowingModal (b : Bool) : Eff World Unit := fun w =>
  (.ok (), { w with page := { w.page with showFollowingModal := b } })

/-- The state setter `setIsLoadingFollowers`. -/
def setIsLoadingFollowers (b : Bool) : Eff World Unit := fun w =>
  (.ok (), { w with page := { w.page with isLoadingFollowers := b } })

/-- The state setter `setIsLoadingFollowing`. -/
def setIsLoadingFollowing (b : Bool) : Eff World Unit := fun w =>
  (.ok (), { w with page := { w.page with isLoadingFollowing := b } })

/-- The state setter `setFollowersData`. -/
def setFollowersData (xs : List JsVal) : Eff World Unit := fun w =>
  (.ok (), { w with page := { w.page with followersData := xs } })

/-- The state setter `setFollowingData`. -/
def setFollowingData (xs : List JsVal) : Eff World Unit := fun w =>
  (.ok (), { w with page := { w.page with followingData := xs } })

/-! ## The follower and following handlers of `ProfilePage` -/

/-- The URL of the template literal `/api/users/${id}`; evaluating the literal
throws when the string conversion of `id` throws. -/
def userUrl (id : JsVal) : Except JsError JsString :=
  match id.toStr with
  | .error e => .error e
  | .ok text => .ok (lit "/api/users/" ++ text)

/-- The object literal both `catch` blocks build from an id:
`{ _id: id, username: "user_" + id.substring(0, 5), fullName: "Unknown User",
profileImg: "/avatar-placeholder.png" }`. Evaluating it throws when `id` has no
`substring` method. -/
def minimalUser (id : JsVal) : Except JsError JsVal :=
  match substring id 0 5 with
  | .error e => .error e
  | .ok sub =>
    .ok (.obj [(lit "_id", id),
               (lit "username", .str (lit "user_" ++ sub)),
               (lit "fullName", .str (lit "Unknown User")),
               (lit "profileImg", .str (lit "/avatar-placeholder.png"))])

/-- The `try` block of the per-item function once its request has ended:
`const res = await fetch(...); if (!res.ok) throw new Error("Failed to fetch
user"); return await res.json();`. -/
def fetchedUser : FetchResult → Except JsError JsVal
  | .rejected => .error .networkError
  | .response false _ => .error (.error (lit "Failed to fetch user"))
  | .response true none => .error .parseError
  | .response true (some body) => .ok body

/-- What the promise of the per-item async function settles with: the `try`
block above, and on any throw the `catch` block, which returns the minimal
user (or throws in turn). -/
def settleUser (r : FetchResult) (id : JsVal) : Except JsError JsVal :=
  match fetchedUser r with
  | .ok body => .ok body
  | .error _ => minimalUser id

/-- The per-item async function for the element `id` at index `i`, run up to its
first `await`: the template literal is evaluated and the request issued, and the
promise returned is given by what it settles with, `net i url` being how the
request ends. When the template literal throws, inside the `try`, no request is
issued and the `catch` block decides the promise at once. -/
def startFetch (net : Nat → JsString → FetchResult) (i : Nat) (id : JsVal) :
    Eff World (Except JsError JsVal) :=
  match userUrl id with
  | .error _ => pure (minimalUser id)
  | .ok url => do
    fetchCall url
    pure (settleUser (net i url) id)

/-- The call `ids.map(async (id) => ...)`: the per-item function is entered for
each element in index order. The result is the list of promises. -/
def startFetches (net : Nat → JsString → FetchResult) :
    Nat → List JsVal → Eff World (List (Except JsError JsVal))
  | _, [] => pure []
  | i, id :: rest => do
    let promise ← startFetch net i id
    let promises ← startFetches net (i + 1) rest
    pure (promise :: promises)

/-- One step of `Promise.all`: the promise with index `i` settles. A fulfilled
promise writes its value into slot `i`; a rejected one rejects the whole. -/
def promiseAllStep (promises : List (Except JsError JsVal)) (slots : List JsVal) (i : Nat) :
    Except JsError (List JsVal) :=
  match promises[i]? with
  | some (.ok v) => .ok (slots.set i v)
  | some (.error e) => .error e
  | none => .ok slots

/-- The settling of promises in the order `order` (indices into `promises`),
starting from the given slots. -/
def promiseAllFrom (promises : List (Except JsError JsVal)) :
    List Nat → List JsVal → Except JsError (List JsVal)
  | [], slots => .ok slots
  | i :: rest, slots =>
    match promiseAllStep promises slots i with
    | .ok slots1 => promiseAllFrom promises rest slots1
    | .error e => .error e

/-- The call `await Promise.all(promises)` when the promises settle in the order
`order`: the values are collected by index, and the first rejection rejects. -/
def promiseAll (order : List Nat) (promises : List (Except JsError JsVal)) :
    Except JsError (List JsVal) :=
  promiseAllFrom promises order (List.replicate promises.length .undefined)

/-- The call `ids.map(id => minimalUser)` of the list-level fallback: it throws
at the first element whose literal throws. -/
def minimalUsers : List JsVal → Except JsError (List JsVal)
  | [] => .ok []
  | id :: rest =>
    match minimalUser id with
    | .error e => .error e
    | .ok u =>
      match minimalUsers rest with
      | .error e => .error e
      | .ok us => .ok (u :: us)

/-- The condition of the first `if`: `rel && Array.isArray(rel) && rel.length > 0
&& typeof rel[0] === 'object'`. -/
def isPopulated (rel : JsVal) : Bool :=
  truthy rel && isArray rel && decide (0 < (arrayItems rel).length) &&
    decide (typeof (itemAt (arrayItems rel) 0) = .object)

/-- The function `handleShowFollowers`. `user` is the profile query's data, `net`
says how each request ends and `order` in which order the requests end. -/
def handleShowFollowers (net : Nat → JsString → FetchResult) (order : List Nat)
    (user : JsVal) : Eff World Unit := do
  if !truthy user then return
  setShowFollowersModal true
  setIsLoadingFollowers true
  Eff.tryFinally
    (Eff.tryCatch
      (do
        let followers ← Eff.ofExcept (member user (lit "followers"))
        if isPopulated followers then
          setFollowersData (arrayItems followers)
          setIsLoadingFollowers false
          return
        if truthy followers && isArray followers then
          Eff.tryCatch
            (do
              let followerPromises ← startFetches net 0 (arrayItems followers)
              let resolvedFollowers ← Eff.ofExcept (promiseAll order followerPromises)
              setFollowersData resolvedFollowers)
            (fun _ => do
              consoleError (lit "Error fetching followers:")
              let minimalFollowers ← Eff.ofExcept (minimalUsers (arrayItems followers))
              setFollowersData minimalFollowers)
        else
          setFollowersData [])
      (fun _ => do
        consoleError (lit "Error in followers modal:")
        setFollowersData []))
    (setIsLoadingFollowers false)

/-- The function `handleShowFollowing`, the same code over `user.following` and
the following state. -/
def handleShowFollowing (net : Nat → JsString → FetchResult) (order : List Nat)
    (user : JsVal) : Eff World Unit := do
  if !truthy user then return
  setShowFollowingModal true
  setIsLoadingFollowing true
  Eff.tryFinally
    (Eff.tryCatch
      (do
        let following ← Eff.ofExcept (member user (lit "following"))
        if isPopulated following then
          setFollowingData (arrayItems following)
          setIsLoadingFollowing false
          return
        if truthy following && isArray following then
          Eff.tryCatch
            (do
              let followingPromises ← startFetches net 0 (arrayItems following)
              let resolvedFollowing ← Eff.ofExcept (promiseAll order followingPromises)
              setFollowingData resolvedFollowing)
            (fun _ => do
              consoleError (lit "Error fetching following:")
              let minimalFollowing ← Eff.ofExcept (minimalUsers (arrayItems following))
              setFollowingData minimalFollowing)
        else
          setFollowingData [])
      (fun _ => do
        consoleError (lit "Error in following modal:")
        setFollowingData []))
    (setIsLoadingFollowing false)

/-- The page as it is first rendered, with no request issued yet. -/
def initialWorld : World :=
  { page := { showFollowersModal := false, showFollowingModal := false,
              followersData := [], followingData := [],
              isLoadingFollowers := false, isLoadingFollowing := false },
    requests := [], console := [] }

/-! ## Derived descriptions of what the handlers do -/

/-- What the promise of `startFetch` settles with. -/
def promiseOf (net : Nat → JsString → FetchResult) (i : Nat) (id : JsVal) :
    Except JsError JsVal :=
  match userUrl id with
  | .error _ => minimalUser id
  | .ok url => settleUser (net i url) id

/-- What the promises of `startFetches` settle with, by index. -/
def settledFrom (net : Nat → JsString → FetchResult) :
    Nat → List JsVal → List (Except JsError JsVal)
  | _, [] => []
  | i, id :: rest => promiseOf net i id :: settledFrom net (i + 1) rest

/-- The URLs `startFetches` requests for a list of elements: one for each
element whose template literal does not throw, in index order. -/
def requestedFor (items : List JsVal) : List JsString :=
  items.filterMap fun id => (userUrl id).toOption

/-- The list a handler stores for the value `rel` of the relation property. -/
def resolvedList (net : Nat → JsString → FetchResult) (order : List Nat) (rel : JsVal) :
    List JsVal :=
  if isPopulated rel then arrayItems rel
  else if truthy rel && isArray rel then
    match promiseAll order (settledFrom net 0 (arrayItems rel)) with
    | .ok vs => vs
    | .error _ =>
      match minimalUsers (arrayItems rel) with
      | .ok us => us
      | .error _ => []
  else []

/-- The requests a handler issues for the value `rel` of the relation property. -/
def requestedUrls (rel : JsVal) : List JsString :=
  if isPopulated rel then []
  else if truthy rel && isArray rel then requestedFor (arrayItems rel)
  else []

/-- The labels a handler writes to the console: `inner` in the list-level
`catch`, `outer` in the outermost one. -/
def consoleLabels (net : Nat → JsString → FetchResult) (order : List Nat) (rel : JsVal)
    (inner outer : JsString) : List JsString :=
  if isPopulated rel then []
  else if truthy rel && isArray rel then
    match promiseAll order (settledFrom net 0 (arrayItems rel)) with
    | .ok _ => []
    | .error _ =>
      match minimalUsers (arrayItems rel) with
      | .ok _ => [inner]
      | .error _ => [inner, outer]
  else []

/-- The minimal user of a string id, written out. -/
def stubUser (id : JsString) : JsVal :=
  .obj [(lit "_id", .str id),
        (lit "username", .str (lit "user_" ++ id.take 5)),
        (lit "fullName", .str (lit "Unknown User")),
        (lit "profileImg", .str (lit "/avatar-placeholder.png"))]

/-- The statement that `stored` resolves the string ids `ids` by index: same
length, and entry `i` is the body fetched for `ids[i]` when that request ended in
an ok response with a JSON body, and otherwise the minimal user the `catch`
block builds from `ids[i]`, whose `_id` is `ids[i]`. -/
def ResolvedByIndex (net : Nat → JsString → FetchResult) (ids : List JsString)
    (stored : List JsVal) : Prop :=
  stored.length = ids.length ∧
  ∀ (i : Nat) (id : JsString), ids[i]? = some id →
    (∀ body, net i (lit "/api/users/" ++ id) = .response true (some body) →
      stored[i]? = some body) ∧
    ((∀ body, net i (lit "/api/users/" ++ id) ≠ .response true (some body)) →
      ∃ stub, stored[i]? = some stub ∧ minimalUser (.str id) = .ok stub ∧
        member stub (lit "_id") = .ok (.str id))

/-- The statement that `stored` treats every element of `items` as an id, by
index: same length, and for an element `items[i]` whose URL is `url`, entry `i`
is the body fetched from `url` when that request ended in an ok response with a
JSON body, and otherwise the minimal user the `catch` block builds from
`items[i]`. -/
def TreatedAsIds (net : Nat → JsString → FetchResult) (items : List JsVal)
    (stored : List JsVal) : Prop :=
  stored.length = items.length ∧
  ∀ (i : Nat) (v : JsVal) (url : JsString), items[i]? = some v → userUrl v = .ok url →
    (∀ body, net i url = .response true (some body) → stored[i]? = some body) ∧
    ((∀ body, net i url ≠ .response true (some body)) →
      ∃ stub, stored[i]? = some stub ∧ minimalUser v = .ok stub)

/-! ## Sample data -/

/-- A profile whose `followers` and `following` are both the relation `rel`. -/
def profileWith (rel : JsVal) : JsVal :=
  .obj [(lit "_id", .str (lit "me")), (lit "username", .str (lit "me")),
        (lit "followers", rel), (lit "following", rel)]

/-- A user as the server sends it. -/
def sampleBob : JsVal :=
  .obj [(lit "_id", .str (lit "u2")), (lit "username", .str (lit "bob")),
        (lit "fullName", .str (lit "Bob B")), (lit "profileImg", .null)]

/-- A network on which the first request of a call is rejected and every other
one is answered with `sampleBob`. -/
def firstFails : Nat → JsString → FetchResult
  | 0, _ => .rejected
  | _, _ => .response true (some sampleBob)

/-- A network on which every request is rejected. -/
def allFail : Nat → JsString → FetchResult := fun _ _ => .rejected

/-- The object of the specification's scenario: `id` "u10", `username` "ann",
`fullName` "Ann A". -/
def sampleAnn : JsVal :=
  .obj [(lit "id", .str (lit "u10")), (lit "username", .str (lit "ann")),
        (lit "fullName", .str (lit "Ann A"))]

/-- A network on which every request is answered with the empty object. -/
def answersEmpty : Nat → JsString → FetchResult := fun _ _ => .response true (some (.obj []))

/-! ## The mutations of `Post` and the posts cache -/

/-- Setting a property in a property list, as an object literal does after a
spread: an existing key keeps its place and takes the new value, a new key goes
to the end. -/
def setProp : List (JsString × JsVal) → JsString → JsVal → List (JsString × JsVal)
  | [], key, v => [(key, v)]
  | (k, old) :: rest, key, v =>
    if k = key then (k, v) :: rest else (k, old) :: setProp rest key v

/-- Index-keyed properties `0, 1, ...` of a list of values, from index `i` on. -/
def indexedFrom : Nat → List JsVal → List (JsString × JsVal)
  | _, [] => []
  | i, v :: rest => (natToStr i, v) :: indexedFrom (i + 1) rest

/-- The own enumerable properties a spread `...v` copies: the properties of an
object, the indexed elements of an array, the indexed code units of a string,
and nothing for the other values. -/
def ownProps : JsVal → List (JsString × JsVal)
  | .obj props => props
  | .arr items => indexedFrom 0 items
  | .str s => indexedFrom 0 (s.map fun c => JsVal.str [c])
  | _ => []

/-- The test `p._id === post._id` against the id of the post the component shows,
which is a string: it holds when `p._id` is that same string, and reading `_id`
off `null` or `undefined` throws. -/
def idIs (p : JsVal) (postId : JsString) : Except JsError Bool :=
  match member p (lit "_id") with
  | .error e => .error e
  | .ok (.str s) => .ok (decide (s = postId))
  | .ok _ => .ok false

/-- The call `xs.map(f)` with a callback that may throw. -/
def mapItems (f : JsVal → Except JsError JsVal) : List JsVal → Except JsError (List JsVal)
  | [] => .ok []
  | x :: rest =>
    match f x with
    | .error e => .error e
    | .ok y =>
      match mapItems f rest with
      | .error e => .error e
      | .ok ys => .ok (y :: ys)

/-- The call `oldData?.map(f)`: `undefined` on a nullish `oldData`, the mapped
array on an array, and a TypeError on any other value, which has no `map`. -/
def optionalMap (f : JsVal → Except JsError JsVal) (oldData : JsVal) : Except JsError JsVal :=
  match oldData with
  | .undefined => .ok .undefined
  | .null => .ok .undefined
  | .arr items =>
    match mapItems f items with
    | .error e => .error e
    | .ok out => .ok (.arr out)
  | _ => .error (.typeError (lit "oldData?.map is not a function"))

/-- The updater of the like mutation:
`oldData?.map((p) => (p._id === post._id ? { ...p, likes: updatedLikes } : p))`. -/
def likeUpdater (postId : JsString) (updatedLikes : JsVal) (oldData : JsVal) :
    Except JsError JsVal :=
  optionalMap (fun p =>
    match idIs p postId with
    | .error e => .error e
    | .ok true => .ok (.obj (setProp (ownProps p) (lit "likes") updatedLikes))
    | .ok false => .ok p) oldData

/-- The updater of the comment mutation:
`oldData?.map((p) => (p._id === post._id ? updatedPost : p))`. -/
def commentUpdater (postId : JsString) (updatedPost : JsVal) (oldData : JsVal) :
    Except JsError JsVal :=
  optionalMap (fun p =>
    match idIs p postId with
    | .error e => .error e
    | .ok true => .ok updatedPost
    | .ok false => .ok p) oldData

/-- A message shown by `react-hot-toast`. -/
inductive Toast where
  | success (message : JsString)
  | error (message : JsString)

/-- The state the mutations of `Post` act on: the data cached for the query
`["posts"]` (`undefined` while not loaded), whether that query has been marked
invalid, the comment input's text, and the toasts shown so far. -/
structure PostState where
  posts : JsVal
  postsInvalidated : Bool
  commentText : JsString
  toasts : List Toast

/-- The library call `queryClient.setQueryData(["posts"], updater)`: the updater
is applied to the cached data, and its result replaces the data unless it is
`undefined`, in which case nothing is written. -/
def setQueryData (updater : JsVal → Except JsError JsVal) : Eff PostState Unit := fun s =>
  match updater s.posts with
  | .error e => (.error e, s)
  | .ok .undefined => (.ok (), s)
  | .ok data => (.ok (), { s with posts := data })

/-- The library call `queryClient.invalidateQueries` on the key `["posts"]`: the
query is marked invalid, to be fetched again; its cached data stays. -/
def invalidatePosts : Eff PostState Unit := fun s =>
  (.ok (), { s with postsInvalidated := true })

/-- The calls `toast.success(message)` and `toast.error(message)`. -/
def showToast (t : Toast) : Eff PostState Unit := fun s =>
  (.ok (), { s with toasts := s.toasts ++ [t] })

/-- The state setter `setCommentText`. -/
def setCommentText (text : JsString) : Eff PostState Unit := fun s =>
  (.ok (), { s with commentText := text })

/-- The `onSuccess` handler of `deletePost`. -/
def deleteOnSuccess : Eff PostState Unit := do
  showToast (.success (lit "Post deleted successfully"))
  invalidatePosts

/-- The `onSuccess` handler of `likePost`. -/
def likeOnSuccess (postId : JsString) (updatedLikes : JsVal) : Eff PostState Unit :=
  setQueryData (likeUpdater postId updatedLikes)

/-- The `onSuccess` handler of `addComment`. -/
def commentOnSuccess (postId : JsString) (updatedPost : JsVal) : Eff PostState Unit := do
  setCommentText []
  setQueryData (commentUpdater postId updatedPost)
  showToast (.success (lit "Comment added!"))

/-- The operation `read(id)` of the specification on the cached data: the first
entry of the cached list whose `_id` is the id, and nothing when there is none or
no list is cached. -/
def readPost (cache : JsVal) (postId : JsString) : Option JsVal :=
  (arrayItems cache).find? fun p =>
    match idIs p postId with
    | .ok true => true
    | _ => false

/-- The post of the specification's comment scenario before the comment: `_id`
"p1", `likes` ["u1"], no comments. -/
def scenarioPost : JsVal :=
  .obj [(lit "_id", .str (lit "p1")), (lit "likes", .arr [.str (lit "u1")]),
        (lit "comments", .arr [])]

/-- The post the server returns in that scenario, with the one comment "c1". -/
def scenarioReturned : JsVal :=
  .obj [(lit "_id", .str (lit "p1")), (lit "likes", .arr [.str (lit "u1")]),
        (lit "comments", .arr [.obj [(lit "_id", .str (lit "c1")),
          (lit "text", .str (lit "great film")),
          (lit "authorStub", .obj [(lit "_id", .str (lit "u2")),
            (lit "username", .str (lit "bob"))])]])]

/-- A state in which the cached post list is `posts` and nothing else happened. -/
def cacheOf (posts : JsVal) : PostState :=
  { posts := posts, postsInvalidated := false, commentText := lit "great film", toasts := [] }

/-! ## The mutation requests of `Post` -/

/-- The text of `error.message`: the message given to `new Error(...)` or carried
by a TypeError, and for the errors the platform raises itself (a rejected
`fetch`, a body that is not JSON) the platform's text, given by `platform`. -/
def errorMessage (platform : JsError → JsString) : JsError → JsString
  | .typeError message => message
  | .error message => message
  | .parseError => platform .parseError
  | .networkError => platform .networkError

/-- The flag `res.ok` of a response with the given status code: the status is
in the range 200 to 299. -/
def statusOk (status : Nat) : Bool := decide (200 ≤ status ∧ status ≤ 299)

/-- A response with the given status code and body, as `fetch` delivers it. -/
def responseOf (status : Nat) (body : Option JsVal) : FetchResult :=
  .response (statusOk status) body

/-- The body shared by the three `mutationFn`, once the request has ended:
`const res = await fetch(...); if (!res.ok) throw new Error(message);
return res.json();`. The body of a response that is not ok is not read. -/
def mutationFn (message : JsString) : FetchResult → Except JsError JsVal
  | .rejected => .error .networkError
  | .response false _ => .error (.error message)
  | .response true none => .error .parseError
  | .response true (some body) => .ok body

/-- The library's `mutate` of `useMutation`, given what the `mutationFn` ended
in: on a value `onSuccess` runs with it, on a throw, of the `mutationFn` or of
`onSuccess`, `onError` runs with the error when there is one; `mutate` itself
returns nothing and never throws. -/
def mutate {σ : Type} (outcome : Except JsError JsVal) (onSuccess : JsVal → Eff σ Unit)
    (onError : Option (JsError → Eff σ Unit)) : Eff σ Unit := fun s =>
  match outcome with
  | .ok data =>
    match onSuccess data s with
    | (.ok _, s1) => (.ok (), s1)
    | (.error e, s1) =>
      match onError with
      | none => (.ok (), s1)
      | some handler => (.ok (), (handler e s1).2)
  | .error e =>
    match onError with
    | none => (.ok (), s)
    | some handler => (.ok (), (handler e s).2)

/-- The `onError` handler of `likePost` and of `addComment`:
`(error) => toast.error(error.message)`. -/
def toastOnError (platform : JsError → JsString) (e : JsError) : Eff PostState Unit :=
  showToast (.error (errorMessage platform e))

/-- The mutation `deletePost`, for a request that ends in `r`. It has an
`onSuccess` handler and no `onError` handler. -/
def deletePost (r : FetchResult) : Eff PostState Unit :=
  mutate (mutationFn (lit "Something went wrong") r) (fun _ => deleteOnSuccess) none

/-- The mutation `likePost`, for a request that ends in `r`. -/
def likePost (platform : JsError → JsString) (postId : JsString) (r : FetchResult) :
    Eff PostState Unit :=
  mutate (mutationFn (lit "Something went wrong") r) (likeOnSuccess postId)
    (some (toastOnError platform))

/-- The mutation `addComment`, for a request that ends in `r`. -/
def addComment (platform : JsError → JsString) (postId : JsString) (r : FetchResult) :
    Eff PostState Unit :=
  mutate (mutationFn (lit "Couldn't add comment") r) (commentOnSuccess postId)
    (some (toastOnError platform))

/-- The texts a browser gives its own errors, taken here from Chrome. -/
def chromeMessages : JsError → JsString
  | .networkError => lit "Failed to fetch"
  | .parseError => lit "Unexpected end of JSON input"
  | .typeError message => message
  | .error message => message

/-- The user ids in the `likes` of a cached post (none when it has no such array). -/
def postLikes (p : JsVal) : List JsVal :=
  match member p (lit "likes") with
  | .ok likes => arrayItems likes
  | .error _ => []

/-- The invariant of the specification on cached data: in no post of the cached
list do the `likes` hold a user id twice. -/
def LikesDistinct (cache : JsVal) : Prop :=
  ∀ p ∈ arrayItems cache, (postLikes p).Nodup

/-- A response that is not ok and whose body carries an `error` string. -/
def notFoundBody : JsVal := .obj [(lit "error", .str (lit "Post not found"))]

/-! ## Events while a handler waits -/

/-- The `onClose` of the followers modal: `() => setShowFollowersModal(false)`. -/
def closeFollowersModal : Eff World Unit := setShowFollowersModal false

/-- The `onClose` of the following modal: `() => setShowFollowingModal(false)`. -/
def closeFollowingModal : Eff World Unit := setShowFollowingModal false

/-- An event handler that runs while a function is suspended at an `await`: its
effects on the state stay, and nothing it throws reaches the waiting function. -/
def whileSuspended (event : Eff World Unit) : Eff World Unit := fun w =>
  (.ok (), (event w).2)

/-- The function `handleShowFollowers` with the handler `event` run while it is
suspended at `await Promise.all(followerPromises)`, after the requests were
issued and before they end. The code is that of `handleShowFollowers`. -/
def handleShowFollowersDuring (event : Eff World Unit)
    (net : Nat → JsString → FetchResult) (order : List Nat) (user : JsVal) :
    Eff World Unit := do
  if !truthy user then return
  setShowFollowersModal true
  setIsLoadingFollowers true
  Eff.tryFinally
    (Eff.tryCatch
      (do
        let followers ← Eff.ofExcept (member user (lit "followers"))
        if isPopulated followers then
          setFollowersData (arrayItems followers)
          setIsLoadingFollowers false
          return
        if truthy followers && isArray followers then
          Eff.tryCatch
            (do
              let followerPromises ← startFetches net 0 (arrayItems followers)
              whileSuspended event
              let resolvedFollowers ← Eff.ofExcept (promiseAll order followerPromises)
              setFollowersData resolvedFollowers)
            (fun _ => do
              consoleError (lit "Error fetching followers:")
              let minimalFollowers ← Eff.ofExcept (minimalUsers (arrayItems followers))
              setFollowersData minimalFollowers)
        else
          setFollowersData [])
      (fun _ => do
        consoleError (lit "Error in followers modal:")
        setFollowersData []))
    (setIsLoadingFollowers false)

/-- The function `handleShowFollowing` with the handler `event` run while it is
suspended at `await Promise.all(followingPromises)`. -/
def handleShowFollowingDuring (event : Eff World Unit)
    (net : Nat → JsString → FetchResult) (order : List Nat) (user : JsVal) :
    Eff World Unit := do
  if !truthy user then return
  setShowFollowingModal true
  setIsLoadingFollowing true
  Eff.tryFinally
    (Eff.tryCatch
      (do
        let following ← Eff.ofExcept (member user (lit "following"))
        if isPopulated following then
          setFollowingData (arrayItems following)
          setIsLoadingFollowing false
          return
        if truthy following && isArray following then
          Eff.tryCatch
            (do
              let followingPromises ← startFetches net 0 (arrayItems following)
              whileSuspended event
              let resolvedFollowing ← Eff.ofExcept (promiseAll order followingPromises)
              setFollowingData resolvedFollowing)
            (fun _ => do
              consoleError (lit "Error fetching following:")
              let minimalFollowing ← Eff.ofExcept (minimalUsers (arrayItems following))
              setFollowingData minimalFollowing)
        else
          setFollowingData [])
      (fun _ => do
        consoleError (lit "Error in following modal:")
        setFollowingData []))
    (setIsLoadingFollowing false)

/-! ## The auth-user query of `ProfilePage` -/

/-- The constant `mockAuthUser`: `{ _id: "user123", following: [] }`. -/
def mockAuthUser : JsVal :=
  .obj [(lit "_id", .str (lit "user123")), (lit "following", .arr [])]

/-- The expression `await fetch(url)`: it throws when the request is rejected and
gives the response, its `ok` flag and its body, otherwise. -/
def awaitFetch : FetchResult → Except JsError (Bool × Option JsVal)
  | .rejected => .error .networkError
  | .response ok body => .ok (ok, body)

/-- The expression `await res.json()`: it throws when the body is not JSON. -/
def resJson : Option JsVal → Except JsError JsVal
  | none => .error .parseError
  | some body => .ok body

/-- The `queryFn` of the auth-user query, for a request that ends in `r`:
`try { const res = await fetch('/api/auth/me'); if (!res.ok) return
mockAuthUser; return await res.json(); } catch (error) { console.error(...);
return mockAuthUser; }`. -/
def authUserQueryFn (r : FetchResult) : Eff World JsVal :=
  Eff.tryCatch
    (do
      fetchCall (lit "/api/auth/me")
      let res ← Eff.ofExcept (awaitFetch r)
      if !res.1 then return mockAuthUser
      Eff.ofExcept (resJson res.2))
    (fun _ => do
      consoleError (lit "Error fetching auth user:")
      pure mockAuthUser)

/-! ## Relative time in `NotificationPage` -/

/-- The function `getRelativeTime`. `now` and `date` are the time values of
`new Date()` and `new Date(timestamp)` in milliseconds (a valid timestamp; on
time values the division and `Math.floor` are exact), and `localeDate` is the
platform's `toLocaleDateString`. -/
def getRelativeTime (localeDate : Int → JsString) (now date : Int) : JsString :=
  let diff := Int.fdiv (now - date) 1000
  if diff < 60 then lit "Just now"
  else if diff < 3600 then intToStr (Int.fdiv diff 60) ++ lit "m ago"
  else if diff < 86400 then intToStr (Int.fdiv diff 3600) ++ lit "h ago"
  else if diff < 604800 then intToStr (Int.fdiv diff 86400) ++ lit "d ago"
  else localeDate date

/-- A `toLocaleDateString` that shows the day number since the epoch. -/
def dayNumberDate (date : Int) : JsString := lit "day " ++ intToStr (Int.fdiv date 86400000)

/-! ## Submitting a comment -/

/-- The code units `String.prototype.trim` strips: the WhiteSpace and
LineTerminator code points of ECMAScript. -/
def isWhiteSpace (c : Nat) : Bool :=
  c == 9 || c == 10 || c == 11 || c == 12 || c == 13 || c == 32 || c == 160 ||
  c == 5760 || (decide (8192 ≤ c) && decide (c ≤ 8202)) || c == 8232 || c == 8233 ||
  c == 8239 || c == 8287 || c == 12288 || c == 65279

/-- The call `s.trim()`: white space is stripped from both ends. -/
def trim (s : JsString) : JsString :=
  ((s.dropWhile isWhiteSpace).reverse.dropWhile isWhiteSpace).reverse

/-- A request as it is handed to `fetch`: method, URL, headers, and the value
whose JSON text is the body. -/
structure Request where
  method : JsString
  url : JsString
  headers : List (JsString × JsString)
  body : Option JsVal

/-- The request of the `mutationFn` of `addComment`: a POST to
`/api/posts/comment/${post._id}` with the JSON text of `{ text: commentText }`. -/
def commentRequest (postId commentText : JsString) : Request :=
  { method := lit "POST",
    url := lit "/api/posts/comment/" ++ postId,
    headers := [(lit "Content-Type", lit "application/json")],
    body := some (.obj [(lit "text", .str commentText)]) }

/-- What a submit handler did besides writing state: whether it called
`e.preventDefault()`, and the requests it sent. -/
structure SubmitOutcome where
  defaultPrevented : Bool
  sent : List Request

/-- The function `handleCommentSubmit`: `e.preventDefault(); if
(!commentText.trim()) return; addComment();`. `net` says how a request ends, and
the mutation's response is taken to arrive before any other event. -/
def handleCommentSubmit (platform : JsError → JsString) (postId : JsString)
    (net : Request → FetchResult) : Eff PostState SubmitOutcome := fun s =>
  if !truthy (.str (trim s.commentText)) then
    (.ok { defaultPrevented := true, sent := [] }, s)
  else
    (.ok { defaultPrevented := true, sent := [commentRequest postId s.commentText] },
     (addComment platform postId (net (commentRequest postId s.commentText)) s).2)

/-- A state with the given text typed into the comment input and the scenario
post cached. -/
def typed (text : JsString) : PostState :=
  { posts := .arr [scenarioPost], postsInvalidated := false, commentText := text, toasts := [] }

/-- A server on which every request is rejected. -/
def rejectsAll : Request → FetchResult := fun _ => .rejected

/-! ## The search page -/

/-- The React state of the search page, and the labels written by
`console.error`. -/
structure SearchState where
  query : JsString
  results : List JsVal
  loading : Bool
  recentSearches : List JsString
  console : List JsString

/-- The initial state: the empty query and the three initial recent searches. -/
def initialSearchState : SearchState :=
  { query := [], results := [], loading := false,
    recentSearches := [lit "drama", lit "action", lit "Christopher Nolan"], console := [] }

/-- The constant `mockUsers` of `handleSearch`. -/
def mockUsers : List JsVal :=
  [.obj [(lit "_id", .str (lit "1")), (lit "username", .str (lit "moviebuff")),
         (lit "profileImg", .str []), (lit "bio", .str (lit "Film enthusiast and critic")),
         (lit "favoriteGenres", .arr [.str (lit "Action"), .str (lit "Sci-Fi")]),
         (lit "reviewCount", .num ⟨42, by decide⟩), (lit "isVerified", .bool true)],
   .obj [(lit "_id", .str (lit "2")), (lit "username", .str (lit "cinemalover")),
         (lit "profileImg", .str []),
         (lit "bio", .str (lit "Director wannabe with a passion for storytelling")),
         (lit "favoriteGenres", .arr [.str (lit "Drama"), .str (lit "Thriller")]),
         (lit "reviewCount", .num ⟨28, by decide⟩), (lit "isVerified", .bool false)]]

/-- Whether `s` begins with `t`. -/
def startsWith : JsString → JsString → Bool
  | _, [] => true
  | [], _ :: _ => false
  | a :: s, b :: t => a == b && startsWith s t

/-- The call `s.includes(t)` on strings: `t` occurs in `s`. -/
def strIncludes : JsString → JsString → Bool
  | [], t => t.isEmpty
  | a :: s, t => startsWith (a :: s) t || strIncludes s t

/-- The string a property of a mock user holds (its `username` and `bio` are
strings). -/
def fieldStr (user : JsVal) (key : JsString) : JsString :=
  match member user key with
  | .ok (.str s) => s
  | _ => []

/-- The state setter `setLoading`. -/
def setLoading (b : Bool) : Eff SearchState Unit := fun s =>
  (.ok (), { s with loading := b })

/-- The state setter `setResults`. -/
def setResults (xs : List JsVal) : Eff SearchState Unit := fun s =>
  (.ok (), { s with results := xs })

/-- The state setter `setRecentSearches` called with an updater function. -/
def setRecentSearches (f : List JsString → List JsString) : Eff SearchState Unit := fun s =>
  (.ok (), { s with recentSearches := f s.recentSearches })

/-- The call `console.error("Search error:", error)`. -/
def searchConsoleError (label : JsString) : Eff SearchState Unit := fun s =>
  (.ok (), { s with console := s.console ++ [label] })

/-- The values of `query` and `recentSearches` the function closed over: those of
the state it is called in. -/
def currentState : Eff SearchState SearchState := fun s => (.ok s, s)

/-- The function `handleSearch`. `lower` is the platform's `toLowerCase`; the
`await` of the one-second timer changes nothing. -/
def handleSearch (lower : JsString → JsString) : Eff SearchState Unit := do
  let view ← currentState
  if !truthy (.str (trim view.query)) then return
  setLoading true
  Eff.tryFinally
    (Eff.tryCatch
      (do
        if !view.recentSearches.contains (trim view.query) then
          setRecentSearches fun prev => trim view.query :: prev.take 4
        setResults (mockUsers.filter fun user =>
          strIncludes (lower (fieldStr user (lit "username"))) (lower view.query) ||
          strIncludes (lower (fieldStr user (lit "bio"))) (lower view.query)))
      (fun _ => searchConsoleError (lit "Search error:")))
    (setLoading false)

/-- One search: the query is typed (`setQuery`) and `handleSearch` runs. -/
def search (lower : JsString → JsString) (q : JsString) (s : SearchState) : SearchState :=
  (handleSearch lower { s with query := q }).2

/-- A sequence of searches, one after the other. -/
def searches (lower : JsString → JsString) (qs : List JsString) (s : SearchState) :
    SearchState :=
  qs.foldl (fun st q => search lower q st) s

/-! ## Grouping notifications by date -/

/-- The groups object of `groupedNotifications`: its keys, in the order they were
added, each with its array of notifications. -/
abbrev Groups := List (JsString × List JsVal)

/-- The two statements of the reducer on the groups object: `if (!groups[date])
groups[date] = []; groups[date].push(notification);`. A date string is never the
name of a member of `Object.prototype`, so `groups[date]` reads an own property. -/
def addToGroup : Groups → JsString → JsVal → Groups
  | [], date, n => [(date, [n])]
  | (k, ms) :: rest, date, n =>
    if k = date then (k, ms ++ [n]) :: rest else (k, ms) :: addToGroup rest date n

/-- The reducer: `const date = new Date(notification.createdAt)
.toLocaleDateString(); ...; return groups;`. `localeDate` is the platform's
conversion of a `createdAt` value to its locale date string. -/
def groupStep (localeDate : JsVal → JsString) (groups : Groups) (notification : JsVal) :
    Except JsError Groups :=
  match member notification (lit "createdAt") with
  | .error e => .error e
  | .ok createdAt => .ok (addToGroup groups (localeDate createdAt) notification)

/-- The call `items.reduce(reducer, groups)`. -/
def reduceGroups (localeDate : JsVal → JsString) : List JsVal → Groups → Except JsError Groups
  | [], groups => .ok groups
  | n :: rest, groups =>
    match groupStep localeDate groups n with
    | .error e => .error e
    | .ok next => reduceGroups localeDate rest next

/-- The constant `groupedNotifications`: `notifications?.reduce(reducer, {}) ||
{}`. A nullish `notifications` gives the empty object, an array is reduced, and
any other value has no `reduce`. -/
def groupedNotifications (localeDate : JsVal → JsString) (notifications : JsVal) :
    Except JsError Groups :=
  match notifications with
  | .undefined => .ok []
  | .null => .ok []
  | .arr items => reduceGroups localeDate items []
  | _ => .error (.typeError (lit "notifications?.reduce is not a function"))

/-- The date string of a notification's `createdAt`. -/
def dateKeyOf (localeDate : JsVal → JsString) (notification : JsVal) : JsString :=
  match member notification (lit "createdAt") with
  | .ok createdAt => localeDate createdAt
  | .error _ => []

/-- The array a key of the groups object holds, if it is a key. -/
def groupAt : Groups → JsString → Option (List JsVal)
  | [], _ => none
  | (k, ms) :: rest, key => if k = key then some ms else groupAt rest key

/-- A `toLocaleDateString` for sample data: the first 10 code units of an ISO
timestamp, and "Invalid Date" for a value that is no string. -/
def isoDay : JsVal → JsString
  | .str s => s.take 10
  | _ => lit "Invalid Date"

/-- A notification with the given id and ISO timestamp. -/
def notificationAt (id created : String) : JsVal :=
  .obj [(lit "_id", .str (lit id)), (lit "createdAt", .str (lit created))]

/-- The state of the groups object after the notifications `pre`: its keys are
distinct, and a key holds the notifications of `pre` with that date string, in
their order, exactly when there is one. -/
def GroupsOf (localeDate : JsVal → JsString) (pre : List JsVal) (g : Groups) : Prop :=
  (g.map Prod.fst).Nodup ∧
  (∀ k, groupAt g k =
    if (pre.filter (fun n => decide (dateKeyOf localeDate n = k))).isEmpty then none
    else some (pre.filter (fun n => decide (dateKeyOf localeDate n = k)))) ∧
  ((g.map Prod.snd).flatten).Perm pre

/-! # Properties -/

/-! ## Running a computation -/

@[simp] theorem Eff.pure_run {σ α : Type} (a : α) (w : σ) :
    (pure a : Eff σ α) w = (.ok a, w) := rfl

@[simp] theorem Eff.bind_run {σ α β : Type} (m : Eff σ α) (f : α → Eff σ β) (w : σ) :
    (m >>= f) w = match m w with
      | (.ok a, w1) => f a w1
      | (.error e, w1) => (.error e, w1) := rfl

theorem userUrl_str (id : JsString) : userUrl (.str id) = .ok (lit "/api/users/" ++ id) := rfl

theorem promiseOf_str (net : Nat → JsString → FetchResult) (i : Nat) (id : JsString) :
    promiseOf net i (.str id) = settleUser (net i (lit "/api/users/" ++ id)) (.str id) := rfl

theorem promiseOf_url (net : Nat → JsString → FetchResult) (i : Nat) (id : JsVal)
    (url : JsString) (h : userUrl id = .ok url) :
    promiseOf net i id = settleUser (net i url) id := by
  simp [promiseOf, h]

theorem startFetch_run (net : Nat → JsString → FetchResult) (i : Nat) (id : JsVal)
    (w : World) :
    startFetch net i id w =
      (.ok (promiseOf net i id),
       { w with requests := w.requests ++ requestedFor [id] }) := by
  cases h : userUrl id with
  | error e => simp [startFetch, promiseOf, requestedFor, h, Except.toOption]
  | ok url => simp [startFetch, promiseOf, requestedFor, h, Except.toOption, fetchCall]

theorem requestedFor_cons (id : JsVal) (rest : List JsVal) :
    requestedFor (id :: rest) = requestedFor [id] ++ requestedFor rest := by
  cases h : (userUrl id).toOption <;> simp [requestedFor, List.filterMap_cons, h]

theorem startFetches_run (net : Nat → JsString → FetchResult) (items : List JsVal) :
    ∀ (i : Nat) (w : World), startFetches net i items w =
      (.ok (settledFrom net i items),
       { w with requests := w.requests ++ requestedFor items }) := by
  induction items with
  | nil => intro i w; simp [startFetches, settledFrom, requestedFor]
  | cons id rest ih =>
    intro i w
    simp [startFetches, settledFrom, ih, startFetch_run, requestedFor_cons id rest]

/-- The whole effect of `handleShowFollowers` once the profile is loaded. -/
theorem handleShowFollowers_run (net : Nat → JsString → FetchResult) (order : List Nat)
    (user rel : JsVal) (w : World) (hu : truthy user = true)
    (hrel : member user (lit "followers") = .ok rel) :
    handleShowFollowers net order user w =
      (.ok (),
       { page := { w.page with
                   showFollowersModal := true
                   followersData := resolvedList net order rel
                   isLoadingFollowers := false },
         requests := w.requests ++ requestedUrls rel,
         console := w.console ++ consoleLabels net order rel
           (lit "Error fetching followers:") (lit "Error in followers modal:") }) := by
  unfold handleShowFollowers resolvedList requestedUrls consoleLabels
  simp only [hu]
  by_cases hp : isPopulated rel = true
  · simp [hp, hrel, Eff.tryFinally, Eff.tryCatch, Eff.ofExcept, setShowFollowersModal,
      setIsLoadingFollowers, setFollowersData]
  · by_cases ha : truthy rel = true ∧ isArray rel = true
    · cases hall : promiseAll order (settledFrom net 0 (arrayItems rel)) with
      | ok vs =>
        simp [hp, ha, hall, hrel, Eff.tryFinally, Eff.tryCatch, Eff.ofExcept,
          setShowFollowersModal, setIsLoadingFollowers, setFollowersData, consoleError,
          startFetches_run]
      | error e =>
        cases hmin : minimalUsers (arrayItems rel) with
        | ok us =>
          simp [hp, ha, hall, hmin, hrel, Eff.tryFinally, Eff.tryCatch, Eff.ofExcept,
            setShowFollowersModal, setIsLoadingFollowers, setFollowersData, consoleError,
            startFetches_run]
        | error e2 =>
          simp [hp, ha, hall, hmin, hrel, Eff.tryFinally, Eff.tryCatch, Eff.ofExcept,
            setShowFollowersModal, setIsLoadingFollowers, setFollowersData, consoleError,
            startFetches_run]
    · simp [hp, ha, hrel, Eff.tryFinally, Eff.tryCatch, Eff.ofExcept, setShowFollowersModal,
        setIsLoadingFollowers, setFollowersData]

/-- The whole effect of `handleShowFollowing` once the profile is loaded. -/
theorem handleShowFollowing_run (net : Nat → JsString → FetchResult) (order : List Nat)
    (user rel : JsVal) (w : World) (hu : truthy user = true)
    (hrel : member user (lit "following") = .ok rel) :
    handleShowFollowing net order user w =
      (.ok (),
       { page := { w.page with
                   showFollowingModal := true
                   followingData := resolvedList net order rel
                   isLoadingFollowing := false },
         requests := w.requests ++ requestedUrls rel,
         console := w.console ++ consoleLabels net order rel
           (lit "Error fetching following:") (lit "Error in following modal:") }) := by
  unfold handleShowFollowing resolvedList requestedUrls consoleLabels
  simp only [hu]
  by_cases hp : isPopulated rel = true
  · simp [hp, hrel, Eff.tryFinally, Eff.tryCatch, Eff.ofExcept, setShowFollowingModal,
      setIsLoadingFollowing, setFollowingData]
  · by_cases ha : truthy rel = true ∧ isArray rel = true
    · cases hall : promiseAll order (settledFrom net 0 (arrayItems rel)) with
      | ok vs =>
        simp [hp, ha, hall, hrel, Eff.tryFinally, Eff.tryCatch, Eff.ofExcept,
          setShowFollowingModal, setIsLoadingFollowing, setFollowingData, consoleError,
          startFetches_run]
      | error e =>
        cases hmin : minimalUsers (arrayItems rel) with
        | ok us =>
          simp [hp, ha, hall, hmin, hrel, Eff.tryFinally, Eff.tryCatch, Eff.ofExcept,
            setShowFollowingModal, setIsLoadingFollowing, setFollowingData, consoleError,
            startFetches_run]
        | error e2 =>
          simp [hp, ha, hall, hmin, hrel, Eff.tryFinally, Eff.tryCatch, Eff.ofExcept,
            setShowFollowingModal, setIsLoadingFollowing, setFollowingData, consoleError,
            startFetches_run]
    · simp [hp, ha, hrel, Eff.tryFinally, Eff.tryCatch, Eff.ofExcept, setShowFollowingModal,
        setIsLoadingFollowing, setFollowingData]

/-! ## Promise.all -/

/-- Settling fulfilled promises fills exactly the slots named in the order. -/
theorem promiseAllFrom_fulfilled (vs : List JsVal) (order : List Nat) :
    ∀ slots : List JsVal, slots.length = vs.length →
      ∃ out, promiseAllFrom (vs.map Except.ok) order slots = .ok out ∧
        out.length = vs.length ∧
        ∀ i, out[i]? = if i ∈ order then vs[i]? else slots[i]? := by
  induction order with
  | nil =>
    intro slots hlen
    exact ⟨slots, rfl, hlen, fun i => by simp⟩
  | cons j rest ih =>
    intro slots hlen
    cases hj : vs[j]? with
    | none =>
      obtain ⟨out, hout, hl, hget⟩ := ih slots hlen
      refine ⟨out, ?_, hl, ?_⟩
      · simp [promiseAllFrom, promiseAllStep, hj, hout]
      · intro i
        rw [hget i]
        by_cases hi : i ∈ rest
        · simp [hi]
        · by_cases hij : i = j
          · subst hij
            have h1 : vs.length ≤ i := List.getElem?_eq_none_iff.mp hj
            have h2 : slots[i]? = none := List.getElem?_eq_none (by omega)
            simp [hi, hj, h2]
          · simp [hi, hij]
    | some v =>
      obtain ⟨out, hout, hl, hget⟩ := ih (slots.set j v) (by simpa using hlen)
      refine ⟨out, ?_, hl, ?_⟩
      · simp [promiseAllFrom, promiseAllStep, hj, hout]
      · intro i
        rw [hget i]
        by_cases hi : i ∈ rest
        · simp [hi]
        · by_cases hij : i = j
          · subst hij
            have h1 : i < vs.length := by
              rcases Nat.lt_or_ge i vs.length with h | h
              · exact h
              · rw [List.getElem?_eq_none h] at hj; cases hj
            simp [hi, hj, List.getElem?_set, hlen, h1]
          · have hji : j ≠ i := fun h => hij h.symm
            simp [hi, hij, List.getElem?_set_ne hji]

/-- When every promise is fulfilled and each settles at some point of the order,
`Promise.all` gives the values by index, whatever the order. -/
theorem promiseAll_fulfilled (vs : List JsVal) (order : List Nat)
    (hcover : ∀ i, i < vs.length → i ∈ order) :
    promiseAll order (vs.map Except.ok) = .ok vs := by
  obtain ⟨out, hout, hl, hget⟩ :=
    promiseAllFrom_fulfilled vs order (List.replicate vs.length .undefined) (by simp)
  have : out = vs := by
    apply List.ext_getElem?
    intro i
    rw [hget i]
    by_cases hi : i < vs.length
    · simp [hcover i hi]
    · have h1 : vs[i]? = none := List.getElem?_eq_none (by omega)
      have h2 : (List.replicate vs.length JsVal.undefined)[i]? = none :=
        List.getElem?_eq_none (by simp; omega)
      simp [h1, h2]
  simp [promiseAll, hout, this]

/-- A rejected promise that settles at some point of the order rejects `Promise.all`. -/
theorem promiseAllFrom_rejected (ps : List (Except JsError JsVal)) (order : List Nat) :
    ∀ (slots : List JsVal) (i : Nat) (e : JsError), i ∈ order → ps[i]? = some (.error e) →
      ∃ e1, promiseAllFrom ps order slots = .error e1 := by
  induction order with
  | nil => intro slots i e hi; simp at hi
  | cons j rest ih =>
    intro slots i e hi hps
    cases hstep : promiseAllStep ps slots j with
    | error e1 => exact ⟨e1, by simp [promiseAllFrom, hstep]⟩
    | ok slots1 =>
      have hne : i ≠ j := by
        intro h
        subst h
        simp [promiseAllStep, hps] at hstep
      have hi2 : i ∈ rest := by
        rcases List.mem_cons.mp hi with h | h
        · exact absurd h hne
        · exact h
      obtain ⟨e1, he1⟩ := ih slots1 i e hi2 hps
      exact ⟨e1, by simp [promiseAllFrom, hstep, he1]⟩

/-! ## The per-item function -/

theorem strSubstring_zero (s : JsString) (n : Nat) : strSubstring s 0 n = s.take n := by
  simp [strSubstring, List.take_take]

theorem minimalUser_str (id : JsString) : minimalUser (.str id) = .ok (stubUser id) := by
  simp [minimalUser, substring, strSubstring_zero, stubUser]

/-- On a string id the per-item function always settles with a value. -/
theorem settleUser_str (r : FetchResult) (id : JsString) :
    settleUser r (.str id) =
      .ok (match fetchedUser r with
           | .ok body => body
           | .error _ => stubUser id) := by
  unfold settleUser
  cases fetchedUser r <;> simp [minimalUser_str]

theorem fetchedUser_ok_iff (r : FetchResult) (body : JsVal) :
    fetchedUser r = .ok body ↔ r = .response true (some body) := by
  cases r with
  | rejected => simp [fetchedUser]
  | response ok b =>
    cases ok <;> cases b <;> simp [fetchedUser]

/-- When every per-item promise is fulfilled, the promises are the list of their
values, entry by entry. -/
theorem settledFrom_fulfilled (net : Nat → JsString → FetchResult) (items : List JsVal) :
    ∀ i : Nat,
      (∀ (j : Nat) (id : JsVal), items[j]? = some id →
        ∃ v, promiseOf net (i + j) id = .ok v) →
      ∃ vs : List JsVal, settledFrom net i items = vs.map Except.ok ∧
        vs.length = items.length ∧
        ∀ (j : Nat) (id : JsVal), items[j]? = some id →
          ∃ v, vs[j]? = some v ∧ promiseOf net (i + j) id = .ok v := by
  induction items with
  | nil => intro i _; exact ⟨[], rfl, rfl, fun j id h => by simp at h⟩
  | cons a rest ih =>
    intro i hall
    obtain ⟨v, hv⟩ := hall 0 a (by simp)
    obtain ⟨vs, hvs, hlen, hget⟩ := ih (i + 1) (fun j id hj => by
      have := hall (j + 1) id (by simpa using hj)
      simpa [Nat.add_assoc, Nat.add_comm 1 j] using this)
    refine ⟨v :: vs, ?_, by simp [hlen], ?_⟩
    · simp at hv
      simp [settledFrom, hv, hvs]
    · intro j id hj
      cases j with
      | zero =>
        simp at hj
        subst hj
        exact ⟨v, by simp, hv⟩
      | succ k =>
        obtain ⟨u, hu1, hu2⟩ := hget k id (by simpa using hj)
        refine ⟨u, by simpa using hu1, ?_⟩
        simpa [Nat.add_assoc, Nat.add_comm 1 k] using hu2

/-- The slow path: a relation array that is not taken for populated, whose
per-item promises are all fulfilled, is stored as the list of their values. -/
theorem resolvedList_fulfilled (net : Nat → JsString → FetchResult) (order : List Nat)
    (items : List JsVal) (hnp : isPopulated (.arr items) = false)
    (hall : ∀ (j : Nat) (id : JsVal), items[j]? = some id →
      ∃ v, promiseOf net j id = .ok v)
    (hcover : ∀ i, i < items.length → i ∈ order) :
    (resolvedList net order (.arr items)).length = items.length ∧
    ∀ (j : Nat) (id : JsVal), items[j]? = some id →
      ∃ v, (resolvedList net order (.arr items))[j]? = some v ∧
        promiseOf net j id = .ok v := by
  obtain ⟨vs, hvs, hlen, hget⟩ := settledFrom_fulfilled net items 0 (by simpa using hall)
  have hres : resolvedList net order (.arr items) = vs := by
    simp [resolvedList, hnp, truthy, isArray, arrayItems, hvs,
      promiseAll_fulfilled vs order (by simpa [hlen] using hcover)]
  rw [hres]
  refine ⟨hlen, ?_⟩
  intro j id hj
  simpa using hget j id hj

theorem isPopulated_strs (ids : List JsString) : isPopulated (.arr (ids.map .str)) = false := by
  cases ids with
  | nil => simp [isPopulated, arrayItems]
  | cons a rest => simp [isPopulated, arrayItems, itemAt, typeof]

/-- The slow path on string ids resolves them by index, whatever the order in
which the requests end. -/
theorem resolvedList_strs (net : Nat → JsString → FetchResult) (order : List Nat)
    (ids : List JsString) (hcover : ∀ i, i < ids.length → i ∈ order) :
    ResolvedByIndex net ids (resolvedList net order (.arr (ids.map .str))) := by
  obtain ⟨hlen, hget⟩ := resolvedList_fulfilled net order (ids.map .str) (isPopulated_strs ids)
    (fun j id hj => by
      simp only [List.getElem?_map, Option.map_eq_some'] at hj
      obtain ⟨s, _, rfl⟩ := hj
      exact ⟨_, by rw [promiseOf_str]; exact settleUser_str _ s⟩)
    (by simpa using hcover)
  refine ⟨by simpa using hlen, ?_⟩
  intro i id hi
  obtain ⟨v, hv, hsettle⟩ := hget i (.str id) (by simp [hi])
  rw [promiseOf_str, settleUser_str] at hsettle
  constructor
  · intro body hbody
    have hf : fetchedUser (net i (lit "/api/users/" ++ id)) = .ok body :=
      (fetchedUser_ok_iff _ _).mpr hbody
    rw [hf] at hsettle
    simp at hsettle
    rw [hv, hsettle]
  · intro hno
    cases hf : fetchedUser (net i (lit "/api/users/" ++ id)) with
    | ok body => exact absurd ((fetchedUser_ok_iff _ _).mp hf) (hno body)
    | error e =>
      rw [hf] at hsettle
      simp at hsettle
      refine ⟨stubUser id, by rw [hv, hsettle], minimalUser_str id, ?_⟩
      simp [stubUser, member, lookupProp]

/-- Two lists that resolve the same ids by index on the same network are equal. -/
theorem ResolvedByIndex.unique {net : Nat → JsString → FetchResult} {ids : List JsString}
    {xs ys : List JsVal} (hx : ResolvedByIndex net ids xs) (hy : ResolvedByIndex net ids ys) :
    xs = ys := by
  apply List.ext_getElem?
  intro i
  by_cases hi : i < ids.length
  · have hid : ids[i]? = some ids[i] := List.getElem?_eq_getElem hi
    obtain ⟨hx1, hx2⟩ := hx.2 i ids[i] hid
    obtain ⟨hy1, hy2⟩ := hy.2 i ids[i] hid
    by_cases hb : ∃ body, net i (lit "/api/users/" ++ ids[i]) = .response true (some body)
    · obtain ⟨body, hbody⟩ := hb
      rw [hx1 body hbody, hy1 body hbody]
    · have hno : ∀ body, net i (lit "/api/users/" ++ ids[i]) ≠ .response true (some body) :=
        fun body h => hb ⟨body, h⟩
      obtain ⟨s1, h1, m1, _⟩ := hx2 hno
      obtain ⟨s2, h2, m2, _⟩ := hy2 hno
      rw [m1] at m2
      cases m2
      rw [h1, h2]
  · have h1 : xs[i]? = none := List.getElem?_eq_none (by have := hx.1; omega)
    have h2 : ys[i]? = none := List.getElem?_eq_none (by have := hy.1; omega)
    rw [h1, h2]

theorem perm_range_cover {order : List Nat} {n : Nat} (h : order.Perm (List.range n)) :
    ∀ i, i < n → i ∈ order :=
  fun _ hi => (h.mem_iff).mpr (List.mem_range.mpr hi)

/-! ## Claims on the follower and following handlers -/

/-- C1: for a relation list made only of string ids, whatever the outcome of each
request and whatever the order in which the requests end, `handleShowFollowers`
and `handleShowFollowing` do not reject and store a list of the same length whose
entry `i` is the body fetched for the id at `i` when that request gave an ok
response with a JSON body, and otherwise the minimal user with that id as `_id`;
the stored list is the same for every order of completion. -/
theorem handlers_resolve_ids_by_index (net : Nat → JsString → FetchResult)
    (order : List Nat) (user : JsVal) (ids : List JsString) (w : World)
    (hu : truthy user = true) (horder : order.Perm (List.range ids.length)) :
    (member user (lit "followers") = .ok (.arr (ids.map .str)) →
      (handleShowFollowers net order user w).1 = .ok () ∧
      ResolvedByIndex net ids (handleShowFollowers net order user w).2.page.followersData ∧
      ∀ order2 : List Nat, order2.Perm (List.range ids.length) →
        (handleShowFollowers net order2 user w).2.page.followersData =
          (handleShowFollowers net order user w).2.page.followersData) ∧
    (member user (lit "following") = .ok (.arr (ids.map .str)) →
      (handleShowFollowing net order user w).1 = .ok () ∧
      ResolvedByIndex net ids (handleShowFollowing net order user w).2.page.followingData ∧
      ∀ order2 : List Nat, order2.Perm (List.range ids.length) →
        (handleShowFollowing net order2 user w).2.page.followingData =
          (handleShowFollowing net order user w).2.page.followingData) := by
  constructor
  · intro hrel
    have h1 := resolvedList_strs net order ids (perm_range_cover horder)
    refine ⟨by rw [handleShowFollowers_run net order user _ w hu hrel], ?_, ?_⟩
    · rw [handleShowFollowers_run net order user _ w hu hrel]
      exact h1
    · intro order2 h2
      rw [handleShowFollowers_run net order user _ w hu hrel,
        handleShowFollowers_run net order2 user _ w hu hrel]
      exact ResolvedByIndex.unique (resolvedList_strs net order2 ids (perm_range_cover h2)) h1
  · intro hrel
    have h1 := resolvedList_strs net order ids (perm_range_cover horder)
    refine ⟨by rw [handleShowFollowing_run net order user _ w hu hrel], ?_, ?_⟩
    · rw [handleShowFollowing_run net order user _ w hu hrel]
      exact h1
    · intro order2 h2
      rw [handleShowFollowing_run net order user _ w hu hrel,
        handleShowFollowing_run net order2 user _ w hu hrel]
      exact ResolvedByIndex.unique (resolvedList_strs net order2 ids (perm_range_cover h2)) h1

/-- Witness of C1: ids `u1`, `u2`, the request for `u1` rejected, the request for
`u2` ending first. -/
theorem handlers_resolve_ids_by_index_witness :
    (handleShowFollowers firstFails [1, 0]
        (profileWith (.arr [.str (lit "u1"), .str (lit "u2")])) initialWorld).1 = .ok () ∧
    (handleShowFollowers firstFails [1, 0]
        (profileWith (.arr [.str (lit "u1"), .str (lit "u2")])) initialWorld).2.page.followersData
      = [stubUser (lit "u1"), sampleBob] ∧
    (handleShowFollowing firstFails [1, 0]
        (profileWith (.arr [.str (lit "u1"), .str (lit "u2")])) initialWorld).1 = .ok () :=
  have h := handlers_resolve_ids_by_index firstFails [1, 0]
    (profileWith (.arr [.str (lit "u1"), .str (lit "u2")])) [lit "u1", lit "u2"] initialWorld
    rfl (by decide)
  ⟨(h.1 rfl).1, rfl, (h.2 rfl).1⟩

theorem promiseAll_nil (order : List Nat) : promiseAll order [] = .ok [] := by
  have := promiseAll_fulfilled [] order (by simp)
  simpa using this

/-- A relation list of objects is stored as it is, and nothing is requested. -/
theorem resolvedList_objects (net : Nat → JsString → FetchResult) (order : List Nat)
    (items : List JsVal) (hobj : ∀ v ∈ items, ∃ props, v = JsVal.obj props) :
    resolvedList net order (.arr items) = items ∧ requestedUrls (.arr items) = [] := by
  cases items with
  | nil =>
    simp [resolvedList, requestedUrls, requestedFor, isPopulated, arrayItems, truthy, isArray,
      settledFrom, promiseAll_nil]
  | cons a rest =>
    obtain ⟨props, rfl⟩ := hobj a (by simp)
    simp [resolvedList, requestedUrls, isPopulated, arrayItems, truthy, isArray, itemAt, typeof]

/-- C2: for a relation list whose elements are all user objects, the empty list
included, `handleShowFollowers` stores exactly the input list, in the same order,
and issues no request (and so does `handleShowFollowing`). -/
theorem handlers_keep_populated_list (net : Nat → JsString → FetchResult)
    (order : List Nat) (user : JsVal) (items : List JsVal) (w : World)
    (hu : truthy user = true) (hobj : ∀ v ∈ items, ∃ props, v = JsVal.obj props) :
    (member user (lit "followers") = .ok (.arr items) →
      (handleShowFollowers net order user w).1 = .ok () ∧
      (handleShowFollowers net order user w).2.page.followersData = items ∧
      (handleShowFollowers net order user w).2.requests = w.requests) ∧
    (member user (lit "following") = .ok (.arr items) →
      (handleShowFollowing net order user w).1 = .ok () ∧
      (handleShowFollowing net order user w).2.page.followingData = items ∧
      (handleShowFollowing net order user w).2.requests = w.requests) := by
  obtain ⟨h1, h2⟩ := resolvedList_objects net order items hobj
  constructor
  · intro hrel
    rw [handleShowFollowers_run net order user _ w hu hrel]
    simp [h1, h2]
  · intro hrel
    rw [handleShowFollowing_run net order user _ w hu hrel]
    simp [h1, h2]

/-- Witness of C2: a relation list of two user objects, on a network that would
reject every request. -/
theorem handlers_keep_populated_list_witness :
    (handleShowFollowers allFail [0, 1] (profileWith (.arr [sampleBob, .obj []]))
        initialWorld).2.page.followersData = [sampleBob, .obj []] ∧
    (handleShowFollowers allFail [0, 1] (profileWith (.arr [sampleBob, .obj []]))
        initialWorld).2.requests = [] ∧
    (handleShowFollowers allFail [] (profileWith (.arr [])) initialWorld).2.requests = [] :=
  have h := handlers_keep_populated_list allFail [0, 1]
    (profileWith (.arr [sampleBob, .obj []])) [sampleBob, .obj []] initialWorld rfl
    (by
      intro v hv
      simp only [List.mem_cons, List.mem_singleton, List.not_mem_nil, or_false] at hv
      rcases hv with rfl | rfl
      · exact ⟨_, rfl⟩
      · exact ⟨_, rfl⟩)
  ⟨(h.1 rfl).2.1, (h.1 rfl).2.2, rfl⟩

theorem settleUser_cases (r : FetchResult) (v u : JsVal) (h : settleUser r v = .ok u) :
    (∀ body, r = .response true (some body) → u = body) ∧
    ((∀ body, r ≠ .response true (some body)) → minimalUser v = .ok u) := by
  unfold settleUser at h
  cases hf : fetchedUser r with
  | ok b =>
    have hr := (fetchedUser_ok_iff r b).mp hf
    rw [hf] at h
    simp at h
    subst h
    refine ⟨fun body hb => ?_, fun hno => absurd hr (hno b)⟩
    rw [hr] at hb
    cases hb
    rfl
  | error e =>
    rw [hf] at h
    simp at h
    refine ⟨fun body hb => ?_, fun _ => h⟩
    rw [(fetchedUser_ok_iff r body).mpr hb] at hf
    cases hf

theorem isPopulated_arr (items : List JsVal) :
    isPopulated (.arr items) = decide (typeof (itemAt items 0) = .object) := by
  cases items with
  | nil => simp [isPopulated, arrayItems, itemAt, typeof]
  | cons a rest => simp [isPopulated, arrayItems, truthy, isArray]

/-- The slow path on any array not taken for populated: every element is treated
as an id, provided each element is a string or has its request answered. -/
theorem resolvedList_treated (net : Nat → JsString → FetchResult) (order : List Nat)
    (items : List JsVal) (hfirst : typeof (itemAt items 0) ≠ .object)
    (hcover : ∀ i, i < items.length → i ∈ order)
    (hitems : ∀ (j : Nat) (v : JsVal), items[j]? = some v →
      (∃ s, v = JsVal.str s) ∨
      ∃ url body, userUrl v = .ok url ∧ net j url = .response true (some body)) :
    TreatedAsIds net items (resolvedList net order (.arr items)) := by
  obtain ⟨hlen, hget⟩ := resolvedList_fulfilled net order items
    (by simp [isPopulated_arr, hfirst])
    (fun j v hj => by
      rcases hitems j v hj with ⟨s, rfl⟩ | ⟨url, body, hurl, hb⟩
      · exact ⟨_, by rw [promiseOf_str]; exact settleUser_str _ s⟩
      · exact ⟨body, by
          rw [promiseOf_url net j v url hurl]
          simp [settleUser, (fetchedUser_ok_iff _ _).mpr hb]⟩)
    hcover
  refine ⟨hlen, ?_⟩
  intro i v url hi hurl
  obtain ⟨u, hu, hsettle⟩ := hget i v hi
  rw [promiseOf_url net i v url hurl] at hsettle
  obtain ⟨h1, h2⟩ := settleUser_cases _ _ _ hsettle
  exact ⟨fun body hb => by rw [hu, h1 body hb], fun hno => ⟨u, hu, h2 hno⟩⟩

/-- The fast path: an array whose first element has type "object" is stored as
it is, and nothing is requested. -/
theorem resolvedList_first_object (net : Nat → JsString → FetchResult) (order : List Nat)
    (items : List JsVal) (hfirst : typeof (itemAt items 0) = .object) :
    resolvedList net order (.arr items) = items ∧ requestedUrls (.arr items) = [] := by
  simp [resolvedList, requestedUrls, isPopulated_arr, hfirst, arrayItems]

theorem requestedUrls_slow (items : List JsVal) (hfirst : typeof (itemAt items 0) ≠ .object) :
    requestedUrls (.arr items) = items.filterMap (fun v => (userUrl v).toOption) := by
  simp [requestedUrls, requestedFor, isPopulated_arr, hfirst, arrayItems, truthy, isArray]

/-- The URL of an object without an own `toString` property. -/
theorem userUrl_obj (props : List (JsString × JsVal))
    (h : hasKey props (lit "toString") = false) :
    userUrl (.obj props) = .ok (lit "/api/users/[object Object]") := by
  simp [userUrl, JsVal.toStr, objectToStr, h]
  rfl

/-- C3, as the code has it: the relation list is classified as a whole, by the
type of its first element. When the first element is an object, the list is
stored unchanged, string ids included, and nothing is requested. When it is not,
the list is taken for a list of ids: a request is issued, in index order, for
every element whose URL can be built, whatever the requests end in and in
whatever order (the URL of a string id ends in the id, and that of an object
without an own `toString` property in "[object Object]"); and, each element being
a string or having its request answered, entry `i` of the stored list is the body
fetched for element `i`, or the minimal user of element `i` when its request
failed. -/
theorem showFollowers_classifies_by_first (net : Nat → JsString → FetchResult)
    (order : List Nat) (user : JsVal) (items : List JsVal) (w : World)
    (hu : truthy user = true)
    (hrel : member user (lit "followers") = .ok (.arr items)) :
    (typeof (itemAt items 0) = .object →
      (handleShowFollowers net order user w).2.page.followersData = items ∧
      (handleShowFollowers net order user w).2.requests = w.requests) ∧
    (typeof (itemAt items 0) ≠ .object →
      (handleShowFollowers net order user w).2.requests
        = w.requests ++ items.filterMap (fun v => (userUrl v).toOption) ∧
      (∀ (v : JsVal) (url : JsString), v ∈ items → userUrl v = .ok url →
        url ∈ (handleShowFollowers net order user w).2.requests) ∧
      (order.Perm (List.range items.length) →
        (∀ (j : Nat) (v : JsVal), items[j]? = some v →
          (∃ s, v = JsVal.str s) ∨
          ∃ url body, userUrl v = .ok url ∧ net j url = .response true (some body)) →
        TreatedAsIds net items (handleShowFollowers net order user w).2.page.followersData)) ∧
    (∀ s : JsString, userUrl (.str s) = .ok (lit "/api/users/" ++ s)) ∧
    (∀ props : List (JsString × JsVal), hasKey props (lit "toString") = false →
      userUrl (.obj props) = .ok (lit "/api/users/[object Object]")) := by
  rw [handleShowFollowers_run net order user _ w hu hrel]
  refine ⟨?_, ?_, userUrl_str, userUrl_obj⟩
  · intro hfirst
    obtain ⟨h1, h2⟩ := resolvedList_first_object net order items hfirst
    simp [h1, h2]
  · intro hfirst
    have hreq := requestedUrls_slow items hfirst
    refine ⟨by simp [hreq], ?_, ?_⟩
    · intro v url hv hurl
      simp only [hreq]
      exact List.mem_append_right _
        (List.mem_filterMap.mpr ⟨v, hv, by simp [hurl, Except.toOption]⟩)
    · intro horder hitems
      exact resolvedList_treated net order items hfirst (perm_range_cover horder) hitems

/-- Witness of the amended C3: the list with the object first is stored as it is,
and the list with the string first has both elements requested and, the second
request answered, both resolved. -/
theorem showFollowers_classifies_by_first_witness :
    ((handleShowFollowers firstFails [0, 1]
        (profileWith (.arr [sampleAnn, .str (lit "u9")])) initialWorld).2.page.followersData
      = [sampleAnn, .str (lit "u9")] ∧
     (handleShowFollowers firstFails [0, 1]
        (profileWith (.arr [sampleAnn, .str (lit "u9")])) initialWorld).2.requests = []) ∧
    (handleShowFollowers firstFails [0, 1]
        (profileWith (.arr [.str (lit "u9"), sampleAnn])) initialWorld).2.requests
      = [lit "/api/users/u9", lit "/api/users/[object Object]"] ∧
    TreatedAsIds firstFails [.str (lit "u9"), sampleAnn]
      (handleShowFollowers firstFails [0, 1]
        (profileWith (.arr [.str (lit "u9"), sampleAnn])) initialWorld).2.page.followersData ∧
    (handleShowFollowers firstFails [0, 1]
        (profileWith (.arr [.str (lit "u9"), sampleAnn])) initialWorld).2.page.followersData
      = [stubUser (lit "u9"), sampleBob] :=
  ⟨(showFollowers_classifies_by_first firstFails [0, 1]
      (profileWith (.arr [sampleAnn, .str (lit "u9")])) [sampleAnn, .str (lit "u9")]
      initialWorld rfl rfl).1 rfl,
   ((showFollowers_classifies_by_first firstFails [0, 1]
      (profileWith (.arr [.str (lit "u9"), sampleAnn])) [.str (lit "u9"), sampleAnn]
      initialWorld rfl rfl).2.1 (by decide)).1,
   ((showFollowers_classifies_by_first firstFails [0, 1]
      (profileWith (.arr [.str (lit "u9"), sampleAnn])) [.str (lit "u9"), sampleAnn]
      initialWorld rfl rfl).2.1 (by decide)).2.2 (by decide)
      (by
        intro j v hj
        match j, hj with
        | 0, hj => exact Or.inl ⟨lit "u9", by simpa using hj.symm⟩
        | 1, hj =>
          have hv : v = sampleAnn := by simpa using hj.symm
          subst hv
          exact Or.inr ⟨lit "/api/users/[object Object]", sampleBob, rfl, rfl⟩
        | n + 2, hj => simp at hj),
   rfl⟩

/-- Counterexample to C3: in the list with the object first and the string id
"u9" second, the string is stored at index 1 as a bare id, and no request is
issued for it. -/
theorem showFollowers_keeps_bare_id :
    (handleShowFollowers allFail [0, 1]
        (profileWith (.arr [sampleAnn, .str (lit "u9")])) initialWorld).2.page.followersData[1]?
      = some (.str (lit "u9")) ∧
    (handleShowFollowers allFail [0, 1]
        (profileWith (.arr [sampleAnn, .str (lit "u9")])) initialWorld).2.requests = [] :=
  ⟨rfl, rfl⟩

theorem fetchedUser_failed (r : FetchResult)
    (h : ∀ body, r ≠ .response true (some body)) : ∃ e, fetchedUser r = .error e := by
  cases hf : fetchedUser r with
  | ok body => exact absurd ((fetchedUser_ok_iff r body).mp hf) (h body)
  | error e => exact ⟨e, rfl⟩

theorem settleUser_answered (r : FetchResult) (v body : JsVal)
    (h : r = .response true (some body)) : settleUser r v = .ok body := by
  simp [settleUser, (fetchedUser_ok_iff r body).mpr h]

theorem settleUser_str_failed (r : FetchResult) (id : JsString)
    (h : ∀ body, r ≠ .response true (some body)) :
    settleUser r (.str id) = .ok (stubUser id) := by
  obtain ⟨e, he⟩ := fetchedUser_failed r h
  simp [settleUser, he, minimalUser_str]

/-- On an object the `catch` block of the per-item function throws, so a failed
request rejects the promise. -/
theorem settleUser_obj_failed (r : FetchResult) (props : List (JsString × JsVal))
    (h : ∀ body, r ≠ .response true (some body)) :
    settleUser r (.obj props) = .error (.typeError (lit "substring is not a function")) := by
  obtain ⟨e, he⟩ := fetchedUser_failed r h
  simp [settleUser, he, minimalUser, substring]

theorem promiseAll_rejected (ps : List (Except JsError JsVal)) (order : List Nat)
    (i : Nat) (e : JsError) (hi : i ∈ order) (hps : ps[i]? = some (.error e)) :
    ∃ e1, promiseAll order ps = .error e1 :=
  promiseAllFrom_rejected ps order _ i e hi hps

/-- The list stored for the scenario list `["u9", ann]` when the request for
"u9" fails. -/
theorem resolvedList_u9_ann (net : Nat → JsString → FetchResult) (order : List Nat)
    (horder : order.Perm (List.range 2))
    (hfail : ∀ body, net 0 (lit "/api/users/u9") ≠ .response true (some body)) :
    (∀ body, net 1 (lit "/api/users/[object Object]") = .response true (some body) →
      resolvedList net order (.arr [.str (lit "u9"), sampleAnn]) = [stubUser (lit "u9"), body]) ∧
    ((∀ body, net 1 (lit "/api/users/[object Object]") ≠ .response true (some body)) →
      resolvedList net order (.arr [.str (lit "u9"), sampleAnn]) = []) := by
  have hurl0 : promiseOf net 0 (.str (lit "u9"))
      = settleUser (net 0 (lit "/api/users/u9")) (.str (lit "u9")) := rfl
  have hurl1 : promiseOf net 1 sampleAnn
      = settleUser (net 1 (lit "/api/users/[object Object]")) sampleAnn := rfl
  have hnp : isPopulated (.arr [.str (lit "u9"), sampleAnn]) = false := by
    simp [isPopulated_arr, itemAt, typeof]
  have h0 := settleUser_str_failed _ (lit "u9") hfail
  constructor
  · intro body hb
    have h1 := settleUser_answered _ sampleAnn body hb
    have hall := promiseAll_fulfilled [stubUser (lit "u9"), body] order
      (perm_range_cover horder)
    simp only [List.map] at hall
    simp [resolvedList, hnp, truthy, isArray, arrayItems, settledFrom, hurl0, hurl1, h0, h1, hall]
  · intro hno
    have h1 : settleUser (net 1 (lit "/api/users/[object Object]")) sampleAnn
        = .error (.typeError (lit "substring is not a function")) :=
      settleUser_obj_failed _ _ hno
    obtain ⟨e1, he1⟩ := promiseAll_rejected
      [.ok (stubUser (lit "u9")), .error (.typeError (lit "substring is not a function"))]
      order 1 _ (perm_range_cover horder 1 (by decide)) rfl
    have hmin : minimalUsers [.str (lit "u9"), sampleAnn]
        = .error (.typeError (lit "substring is not a function")) := rfl
    simp [resolvedList, hnp, truthy, isArray, arrayItems, settledFrom, hurl0, hurl1, h0, h1, he1,
      hmin]

/-- C4, as the code has it: for the relation list `["u9", ann]` with the request
for "u9" failing, the first element is a string, so a request is issued for each
of the two elements, the object included (its URL ends in "[object Object]"),
and the call does not reject. When that second request is answered, the stored
list is the minimal user of "u9" followed by the answer's body, two entries in
the order of the input. -/
theorem showFollowers_u9_ann (net : Nat → JsString → FetchResult) (order : List Nat)
    (w : World) (horder : order.Perm (List.range 2))
    (hfail : ∀ body, net 0 (lit "/api/users/u9") ≠ .response true (some body)) :
    (handleShowFollowers net order
        (profileWith (.arr [.str (lit "u9"), sampleAnn])) w).1 = .ok () ∧
    (handleShowFollowers net order
        (profileWith (.arr [.str (lit "u9"), sampleAnn])) w).2.requests
      = w.requests ++ [lit "/api/users/u9", lit "/api/users/[object Object]"] ∧
    (∀ body, net 1 (lit "/api/users/[object Object]") = .response true (some body) →
      (handleShowFollowers net order
          (profileWith (.arr [.str (lit "u9"), sampleAnn])) w).2.page.followersData
        = [stubUser (lit "u9"), body]) := by
  obtain ⟨h1, _⟩ := resolvedList_u9_ann net order horder hfail
  rw [handleShowFollowers_run net order (profileWith (.arr [.str (lit "u9"), sampleAnn]))
    (.arr [.str (lit "u9"), sampleAnn]) w rfl rfl]
  refine ⟨rfl, ?_, ?_⟩
  · have : requestedUrls (.arr [.str (lit "u9"), sampleAnn])
        = [lit "/api/users/u9", lit "/api/users/[object Object]"] := rfl
    simp [this]
  · intro body hb
    simpa using h1 body hb

/-- Witness of the amended C4: the request for "u9" is rejected and the request
issued for the object is answered with `sampleBob`. -/
theorem showFollowers_u9_ann_witness :
    (handleShowFollowers firstFails [1, 0]
        (profileWith (.arr [.str (lit "u9"), sampleAnn])) initialWorld).2.page.followersData
      = [stubUser (lit "u9"), sampleBob] :=
  (showFollowers_u9_ann firstFails [1, 0] initialWorld (by decide)
    (by intro body h; cases h)).2.2 sampleBob rfl

/-- Counterexample to C4: with the request for "u9" failing, and the request the
code issues for the object failing as well, the stored list is empty, not the
two-element list of the scenario; the console shows both `catch` blocks ran. -/
theorem scenario_list_stored_empty :
    (handleShowFollowers allFail [0, 1]
        (profileWith (.arr [.str (lit "u9"), sampleAnn])) initialWorld).2.page.followersData
      = [] ∧
    (handleShowFollowers allFail [0, 1]
        (profileWith (.arr [.str (lit "u9"), sampleAnn])) initialWorld).2.page.followersData
      ≠ [stubUser (lit "u9"), sampleAnn] ∧
    (handleShowFollowers allFail [0, 1]
        (profileWith (.arr [.str (lit "u9"), sampleAnn])) initialWorld).2.console
      = [lit "Error fetching followers:", lit "Error in followers modal:"] :=
  ⟨rfl, fun h => List.noConfusion h, rfl⟩

/-- C5: for every string id, the stub built when its request fails (rejected,
response not ok, or body not JSON) is exactly the object with `_id` the id,
`username` "user_" followed by the first 5 code units of the id, `fullName`
"Unknown User" and `profileImg` "/avatar-placeholder.png"; the list-level
fallback builds the same object; and an id of at most 5 code units is taken
whole. -/
theorem stub_of_failed_fetch (id : JsString) (r : FetchResult)
    (hfail : ∀ body, r ≠ .response true (some body)) :
    settleUser r (.str id) =
      .ok (.obj [(lit "_id", .str id),
                 (lit "username", .str (lit "user_" ++ id.take 5)),
                 (lit "fullName", .str (lit "Unknown User")),
                 (lit "profileImg", .str (lit "/avatar-placeholder.png"))]) ∧
    minimalUser (.str id) =
      .ok (.obj [(lit "_id", .str id),
                 (lit "username", .str (lit "user_" ++ id.take 5)),
                 (lit "fullName", .str (lit "Unknown User")),
                 (lit "profileImg", .str (lit "/avatar-placeholder.png"))]) ∧
    (id.length ≤ 5 → id.take 5 = id) := by
  refine ⟨?_, ?_, fun h => List.take_of_length_le h⟩
  · rw [settleUser_str_failed r id hfail]; rfl
  · rw [minimalUser_str]; rfl

/-- Witness of C5: the id "u9" with a rejected request, and the 8-unit id
"abcdefgh" with a response that is not ok. -/
theorem stub_of_failed_fetch_witness :
    settleUser .rejected (.str (lit "u9")) =
      .ok (.obj [(lit "_id", .str (lit "u9")),
                 (lit "username", .str (lit "user_u9")),
                 (lit "fullName", .str (lit "Unknown User")),
                 (lit "profileImg", .str (lit "/avatar-placeholder.png"))]) ∧
    settleUser (.response false none) (.str (lit "abcdefgh")) =
      .ok (.obj [(lit "_id", .str (lit "abcdefgh")),
                 (lit "username", .str (lit "user_abcde")),
                 (lit "fullName", .str (lit "Unknown User")),
                 (lit "profileImg", .str (lit "/avatar-placeholder.png"))]) :=
  ⟨(stub_of_failed_fetch (lit "u9") .rejected (by intro body h; cases h)).1,
   (stub_of_failed_fetch (lit "abcdefgh") (.response false none)
      (by intro body h; cases h)).1⟩

theorem stubUser_fields (id : JsString) :
    member (stubUser id) (lit "_id") = .ok (.str id) ∧
    member (stubUser id) (lit "username") = .ok (.str (lit "user_" ++ id.take 5)) ∧
    lit "user_" ++ id.take 5 ≠ [] := by
  refine ⟨rfl, rfl, ?_⟩
  intro h
  have := congrArg List.length h
  simp [lit] at this

/-- In a list that resolves string ids by index, every item is the payload of
its request as received, or a stub with the id as `_id` and a username that is
not empty. -/
theorem ResolvedByIndex.items {net : Nat → JsString → FetchResult} {ids : List JsString}
    {stored : List JsVal} (h : ResolvedByIndex net ids stored) :
    ∀ (i : Nat) (item : JsVal), stored[i]? = some item →
      ∃ id, ids[i]? = some id ∧
        (net i (lit "/api/users/" ++ id) = .response true (some item) ∨
         (member item (lit "_id") = .ok (.str id) ∧
          ∃ name, member item (lit "username") = .ok (.str name) ∧ name ≠ [])) := by
  intro i item hitem
  have hi : i < ids.length := by
    rcases Nat.lt_or_ge i stored.length with hlt | hge
    · rw [← h.1]; exact hlt
    · rw [List.getElem?_eq_none hge] at hitem; cases hitem
  refine ⟨ids[i], List.getElem?_eq_getElem hi, ?_⟩
  obtain ⟨h1, h2⟩ := h.2 i ids[i] (List.getElem?_eq_getElem hi)
  by_cases hb : ∃ body, net i (lit "/api/users/" ++ ids[i]) = .response true (some body)
  · obtain ⟨body, hbody⟩ := hb
    have := h1 body hbody
    rw [hitem] at this
    cases this
    exact Or.inl hbody
  · obtain ⟨stub, hs, hm, _⟩ := h2 (fun body hbody => hb ⟨body, hbody⟩)
    rw [hitem] at hs
    cases hs
    rw [minimalUser_str] at hm
    cases hm
    obtain ⟨f1, f2, f3⟩ := stubUser_fields ids[i]
    exact Or.inr ⟨f1, _, f2, f3⟩

/-- C6, as the code has it: the handlers check no field of what they store. For a
list of string ids every stored item is either the payload of its request as the
server sent it, or a synthesized stub, and the stub has the id as `_id` and a
username that is not empty; a list whose first element is an object is stored
as received. -/
theorem stored_items_stub_or_received (net : Nat → JsString → FetchResult)
    (order : List Nat) (user : JsVal) (w : World) (hu : truthy user = true) :
    (∀ ids : List JsString, order.Perm (List.range ids.length) →
      member user (lit "followers") = .ok (.arr (ids.map .str)) →
      ∀ (i : Nat) (item : JsVal),
        (handleShowFollowers net order user w).2.page.followersData[i]? = some item →
        ∃ id, ids[i]? = some id ∧
          (net i (lit "/api/users/" ++ id) = .response true (some item) ∨
           (member item (lit "_id") = .ok (.str id) ∧
            ∃ name, member item (lit "username") = .ok (.str name) ∧ name ≠ []))) ∧
    (∀ ids : List JsString, order.Perm (List.range ids.length) →
      member user (lit "following") = .ok (.arr (ids.map .str)) →
      ∀ (i : Nat) (item : JsVal),
        (handleShowFollowing net order user w).2.page.followingData[i]? = some item →
        ∃ id, ids[i]? = some id ∧
          (net i (lit "/api/users/" ++ id) = .response true (some item) ∨
           (member item (lit "_id") = .ok (.str id) ∧
            ∃ name, member item (lit "username") = .ok (.str name) ∧ name ≠ []))) ∧
    (∀ items : List JsVal, typeof (itemAt items 0) = .object →
      member user (lit "followers") = .ok (.arr items) →
      (handleShowFollowers net order user w).2.page.followersData = items) ∧
    (∀ items : List JsVal, typeof (itemAt items 0) = .object →
      member user (lit "following") = .ok (.arr items) →
      (handleShowFollowing net order user w).2.page.followingData = items) := by
  refine ⟨?_, ?_, ?_, ?_⟩
  · intro ids horder hrel
    rw [handleShowFollowers_run net order user _ w hu hrel]
    exact (resolvedList_strs net order ids (perm_range_cover horder)).items
  · intro ids horder hrel
    rw [handleShowFollowing_run net order user _ w hu hrel]
    exact (resolvedList_strs net order ids (perm_range_cover horder)).items
  · intro items hfirst hrel
    rw [handleShowFollowers_run net order user _ w hu hrel]
    exact (resolvedList_first_object net order items hfirst).1
  · intro items hfirst hrel
    rw [handleShowFollowing_run net order user _ w hu hrel]
    exact (resolvedList_first_object net order items hfirst).1

/-- Witness of the amended C6: the id "u1" with its request rejected gives an
item that is the stub of "u1". -/
theorem stored_items_stub_or_received_witness :
    ∃ id, [lit "u1"][0]? = some id ∧
      (allFail 0 (lit "/api/users/" ++ id) = .response true (some (stubUser (lit "u1"))) ∨
       (member (stubUser (lit "u1")) (lit "_id") = .ok (.str id) ∧
        ∃ name, member (stubUser (lit "u1")) (lit "username") = .ok (.str name) ∧ name ≠ [])) :=
  (stored_items_stub_or_received allFail [0] (profileWith (.arr [.str (lit "u1")]))
    initialWorld rfl).1 [lit "u1"] (by decide) rfl 0 (stubUser (lit "u1")) rfl

/-- Counterexample to C6: a populated list holding the empty object is stored
with that object, which has neither `_id` nor `username`; and a payload that is
the empty object is stored for the id "u1" as it came. -/
theorem stored_item_without_username :
    (handleShowFollowers allFail [0] (profileWith (.arr [.obj []]))
        initialWorld).2.page.followersData = [.obj []] ∧
    (handleShowFollowers answersEmpty [0] (profileWith (.arr [.str (lit "u1")]))
        initialWorld).2.page.followersData = [.obj []] ∧
    member (.obj []) (lit "username") = .ok .undefined ∧
    member (.obj []) (lit "_id") = .ok .undefined :=
  ⟨rfl, rfl, rfl, rfl⟩

theorem member_of_truthy (user : JsVal) (key : JsString) (hu : truthy user = true) :
    ∃ rel, member user key = .ok rel := by
  cases user <;> simp [truthy, member] at hu ⊢

theorem handleShowFollowers_not_loaded (net : Nat → JsString → FetchResult)
    (order : List Nat) (user : JsVal) (w : World) (hu : truthy user = false) :
    handleShowFollowers net order user w = (.ok (), w) := by
  simp [handleShowFollowers, hu]

theorem handleShowFollowing_not_loaded (net : Nat → JsString → FetchResult)
    (order : List Nat) (user : JsVal) (w : World) (hu : truthy user = false) :
    handleShowFollowing net order user w = (.ok (), w) := by
  simp [handleShowFollowing, hu]

/-- Neither handler ever rejects. -/
theorem handlers_total (net : Nat → JsString → FetchResult) (order : List Nat)
    (user : JsVal) (w : World) :
    (handleShowFollowers net order user w).1 = .ok () ∧
    (handleShowFollowing net order user w).1 = .ok () := by
  cases hu : truthy user with
  | false =>
    rw [handleShowFollowers_not_loaded net order user w hu,
      handleShowFollowing_not_loaded net order user w hu]
    exact ⟨rfl, rfl⟩
  | true =>
    obtain ⟨r1, h1⟩ := member_of_truthy user (lit "followers") hu
    obtain ⟨r2, h2⟩ := member_of_truthy user (lit "following") hu
    rw [handleShowFollowers_run net order user r1 w hu h1,
      handleShowFollowing_run net order user r2 w hu h2]
    exact ⟨rfl, rfl⟩

theorem resolvedList_not_array (net : Nat → JsString → FetchResult) (order : List Nat)
    (rel : JsVal) (h : isArray rel = false) :
    resolvedList net order rel = [] ∧ requestedUrls rel = [] ∧
      ∀ a b, consoleLabels net order rel a b = [] := by
  simp [resolvedList, requestedUrls, consoleLabels, isPopulated, h]

/-- C7, as the code has it: a relation property that is missing or not an
array makes nothing fail. The handler stores the empty list, issues no request,
writes nothing to the console, clears its loading flag and returns normally;
and for no profile, network and order of completion does either handler reject. -/
theorem malformed_relation_gives_empty_list (net : Nat → JsString → FetchResult)
    (order : List Nat) (user : JsVal) (w : World) :
    ((handleShowFollowers net order user w).1 = .ok () ∧
     (handleShowFollowing net order user w).1 = .ok ()) ∧
    (truthy user = true → ∀ rel, member user (lit "followers") = .ok rel →
      isArray rel = false →
      (handleShowFollowers net order user w).2.page.followersData = [] ∧
      (handleShowFollowers net order user w).2.page.isLoadingFollowers = false ∧
      (handleShowFollowers net order user w).2.requests = w.requests ∧
      (handleShowFollowers net order user w).2.console = w.console) ∧
    (truthy user = true → ∀ rel, member user (lit "following") = .ok rel →
      isArray rel = false →
      (handleShowFollowing net order user w).2.page.followingData = [] ∧
      (handleShowFollowing net order user w).2.page.isLoadingFollowing = false ∧
      (handleShowFollowing net order user w).2.requests = w.requests ∧
      (handleShowFollowing net order user w).2.console = w.console) := by
  refine ⟨handlers_total net order user w, ?_, ?_⟩
  · intro hu rel hrel harr
    obtain ⟨h1, h2, h3⟩ := resolvedList_not_array net order rel harr
    rw [handleShowFollowers_run net order user rel w hu hrel]
    simp [h1, h2, h3]
  · intro hu rel hrel harr
    obtain ⟨h1, h2, h3⟩ := resolvedList_not_array net order rel harr
    rw [handleShowFollowing_run net order user rel w hu hrel]
    simp [h1, h2, h3]

/-- Witness of the amended C7: a profile without a `followers` property. -/
theorem malformed_relation_gives_empty_list_witness :
    (handleShowFollowers allFail [] (.obj [(lit "_id", .str (lit "me"))])
        initialWorld).2.page.followersData = [] ∧
    (handleShowFollowers allFail [] (.obj [(lit "_id", .str (lit "me"))])
        initialWorld).2.page.isLoadingFollowers = false ∧
    (handleShowFollowers allFail [] (.obj [(lit "_id", .str (lit "me"))])
        initialWorld).2.requests = initialWorld.requests ∧
    (handleShowFollowers allFail [] (.obj [(lit "_id", .str (lit "me"))])
        initialWorld).2.console = initialWorld.console :=
  (malformed_relation_gives_empty_list allFail [] (.obj [(lit "_id", .str (lit "me"))])
    initialWorld).2.1 rfl .undefined rfl rfl

/-- Counterexample to C7: with `followers` missing from the profile, and with
`followers` a string, the call ends normally, no error reaches the caller, and a
list, the empty one, is stored. -/
theorem malformed_relation_does_not_fail :
    handleShowFollowers allFail [] (.obj [(lit "_id", .str (lit "me"))]) initialWorld
      = (.ok (), { initialWorld with
          page := { initialWorld.page with showFollowersModal := true } }) ∧
    (handleShowFollowers allFail [] (profileWith (.str (lit "u1,u2"))) initialWorld).1
      = .ok () ∧
    (handleShowFollowers allFail [] (profileWith (.str (lit "u1,u2")))
        initialWorld).2.page.followersData = [] :=
  ⟨rfl, rfl, rfl⟩

/-! ## The posts cache -/

theorem lookupProp_setProp_same (props : List (JsString × JsVal)) (key : JsString) (v : JsVal) :
    lookupProp (setProp props key v) key = v := by
  induction props with
  | nil => simp [setProp, lookupProp]
  | cons kv rest ih =>
    obtain ⟨k, old⟩ := kv
    by_cases hk : k = key
    · simp [setProp, lookupProp, hk]
    · simp [setProp, lookupProp, hk, ih]

theorem lookupProp_setProp_other (props : List (JsString × JsVal)) (key other : JsString)
    (v : JsVal) (hne : other ≠ key) :
    lookupProp (setProp props key v) other = lookupProp props other := by
  induction props with
  | nil =>
    have : ¬ key = other := fun h => hne h.symm
    simp [setProp, lookupProp, this]
  | cons kv rest ih =>
    obtain ⟨k, old⟩ := kv
    by_cases hk : k = key
    · subst hk
      have : ¬ k = other := fun h => hne h.symm
      simp [setProp, lookupProp, this]
    · by_cases ho : k = other
      · subst ho
        simp [setProp, lookupProp, hk]
      · simp [setProp, lookupProp, hk, ho, ih]

/-- A callback that throws on no element maps the list entry by entry. -/
theorem mapItems_total (f : JsVal → Except JsError JsVal) (xs : List JsVal)
    (hf : ∀ x ∈ xs, ∃ y, f x = .ok y) :
    ∃ ys, mapItems f xs = .ok ys ∧ ys.length = xs.length ∧
      ∀ (i : Nat) (x : JsVal), xs[i]? = some x → ∃ y, ys[i]? = some y ∧ f x = .ok y := by
  induction xs with
  | nil => exact ⟨[], rfl, rfl, fun i x h => by simp at h⟩
  | cons a rest ih =>
    obtain ⟨b, hb⟩ := hf a (by simp)
    obtain ⟨ys, hys, hlen, hget⟩ := ih (fun x hx => hf x (by simp [hx]))
    refine ⟨b :: ys, by simp [mapItems, hb, hys], by simp [hlen], ?_⟩
    intro i x hi
    cases i with
    | zero =>
      simp at hi
      subst hi
      exact ⟨b, by simp, hb⟩
    | succ k =>
      obtain ⟨y, hy1, hy2⟩ := hget k x (by simpa using hi)
      exact ⟨y, by simpa using hy1, hy2⟩

/-- The id test throws only on `null` and `undefined`. -/
theorem idIs_total (p : JsVal) (postId : JsString) (h1 : p ≠ .null) (h2 : p ≠ .undefined) :
    ∃ b, idIs p postId = .ok b := by
  cases p with
  | undefined => exact absurd rfl h2
  | null => exact absurd rfl h1
  | obj props =>
    simp only [idIs, member]
    cases lookupProp props (lit "_id") <;> simp
  | bool b => exact ⟨false, rfl⟩
  | num n => exact ⟨false, rfl⟩
  | str s => exact ⟨false, rfl⟩
  | arr items => exact ⟨false, rfl⟩

/-- Only an object whose `_id` is the string passes the id test. -/
theorem idIs_true (p : JsVal) (postId : JsString) (h : idIs p postId = .ok true) :
    ∃ props, p = .obj props ∧ lookupProp props (lit "_id") = .str postId := by
  cases p with
  | obj props =>
    refine ⟨props, rfl, ?_⟩
    simp only [idIs, member] at h
    cases hl : lookupProp props (lit "_id") with
    | str s =>
      rw [hl] at h
      simp at h
      rw [h]
    | undefined => rw [hl] at h; simp at h
    | null => rw [hl] at h; simp at h
    | bool b => rw [hl] at h; simp at h
    | num n => rw [hl] at h; simp at h
    | arr items => rw [hl] at h; simp at h
    | obj q => rw [hl] at h; simp at h
  | undefined => simp [idIs, member] at h
  | null => simp [idIs, member] at h
  | bool b => simp [idIs, member] at h
  | num n => simp [idIs, member] at h
  | str s => simp [idIs, member] at h
  | arr items => simp [idIs, member] at h

/-- The entry the like updater makes of a post with the id: same `_id`, and
`likes` the server's value. -/
theorem liked_entry (props : List (JsString × JsVal)) (postId : JsString) (likes : JsVal)
    (h : lookupProp props (lit "_id") = .str postId) :
    idIs (.obj (setProp props (lit "likes") likes)) postId = .ok true ∧
    member (.obj (setProp props (lit "likes") likes)) (lit "likes") = .ok likes := by
  have hne : lit "_id" ≠ lit "likes" := by decide
  constructor
  · simp [idIs, member, lookupProp_setProp_other _ _ _ _ hne, h]
  · simp [member, lookupProp_setProp_same]

/-- The like updater on a cached list without nullish entries: it returns a list
of the same length, where an entry with the id keeps the id and has the server's
likes, and any other entry is unchanged. -/
theorem likeUpdater_arr (postId : JsString) (likes : JsVal) (ps : List JsVal)
    (hps : ∀ p ∈ ps, p ≠ JsVal.null ∧ p ≠ JsVal.undefined) :
    ∃ qs, likeUpdater postId likes (.arr ps) = .ok (.arr qs) ∧ qs.length = ps.length ∧
      ∀ (i : Nat) (p : JsVal), ps[i]? = some p →
        (idIs p postId = .ok true →
          ∃ q, qs[i]? = some q ∧ idIs q postId = .ok true ∧
            member q (lit "likes") = .ok likes) ∧
        (idIs p postId = .ok false → qs[i]? = some p) := by
  obtain ⟨qs, hqs, hlen, hget⟩ := mapItems_total
    (fun p =>
      match idIs p postId with
      | .error e => .error e
      | .ok true => .ok (.obj (setProp (ownProps p) (lit "likes") likes))
      | .ok false => .ok p) ps
    (fun p hp => by
      obtain ⟨b, hb⟩ := idIs_total p postId (hps p hp).1 (hps p hp).2
      cases b <;> simp [hb])
  refine ⟨qs, by simp [likeUpdater, optionalMap, hqs], hlen, ?_⟩
  intro i p hi
  obtain ⟨q, hq, hf⟩ := hget i p hi
  constructor
  · intro hid
    obtain ⟨props, rfl, hl⟩ := idIs_true p postId hid
    simp only [hid, ownProps] at hf
    cases hf
    exact ⟨_, hq, liked_entry props postId likes hl⟩
  · intro hid
    simp only [hid] at hf
    cases hf
    exact hq

/-- C8: for every cached post list, post id and likes value returned by the
server, the success handler of the like mutation ends normally and leaves a list
of the same length in which every post with that id has exactly the returned
value as its `likes`, whatever its `likes` were before; the posts that had the id
before are the ones that have it after. -/
theorem like_success_sets_server_likes (postId : JsString) (likes : JsVal)
    (ps : List JsVal) (s : PostState)
    (hps : ∀ p ∈ ps, p ≠ JsVal.null ∧ p ≠ JsVal.undefined)
    (hcache : s.posts = .arr ps) :
    ∃ qs, likeOnSuccess postId likes s = (.ok (), { s with posts := .arr qs }) ∧
      qs.length = ps.length ∧
      (∀ q ∈ qs, idIs q postId = .ok true → member q (lit "likes") = .ok likes) ∧
      (∀ (i : Nat) (p : JsVal), ps[i]? = some p → idIs p postId = .ok true →
        ∃ q, qs[i]? = some q ∧ idIs q postId = .ok true ∧
          member q (lit "likes") = .ok likes) := by
  obtain ⟨qs, hqs, hlen, hget⟩ := likeUpdater_arr postId likes ps hps
  refine ⟨qs, by simp [likeOnSuccess, setQueryData, hcache, hqs], hlen, ?_, ?_⟩
  · intro q hq hid
    obtain ⟨i, hi, hqi⟩ := List.getElem_of_mem hq
    have hi2 : i < ps.length := by omega
    obtain ⟨h1, h2⟩ := hget i ps[i] (List.getElem?_eq_getElem hi2)
    have hqi2 : qs[i]? = some q := by rw [List.getElem?_eq_getElem hi, hqi]
    obtain ⟨b, hb⟩ := idIs_total ps[i] postId (hps _ (List.getElem_mem hi2)).1
      (hps _ (List.getElem_mem hi2)).2
    cases b with
    | true =>
      obtain ⟨q2, hq2, _, hl⟩ := h1 hb
      rw [hqi2] at hq2
      cases hq2
      exact hl
    | false =>
      have := h2 hb
      rw [hqi2] at this
      cases this
      rw [hb] at hid
      cases hid
  · intro i p hi hid
    exact (hget i p hi).1 hid

/-- Witness of C8: the cached post "p1" with likes ["u1"], and the server
returning the likes ["u1", "u2"]. -/
theorem like_success_sets_server_likes_witness :
    (∃ qs, likeOnSuccess (lit "p1") (.arr [.str (lit "u1"), .str (lit "u2")])
        (cacheOf (.arr [scenarioPost]))
      = (.ok (), { cacheOf (.arr [scenarioPost]) with posts := .arr qs }) ∧
      qs.length = [scenarioPost].length ∧
      (∀ q ∈ qs, idIs q (lit "p1") = .ok true →
        member q (lit "likes") = .ok (.arr [.str (lit "u1"), .str (lit "u2")])) ∧
      (∀ (i : Nat) (p : JsVal), [scenarioPost][i]? = some p → idIs p (lit "p1") = .ok true →
        ∃ q, qs[i]? = some q ∧ idIs q (lit "p1") = .ok true ∧
          member q (lit "likes") = .ok (.arr [.str (lit "u1"), .str (lit "u2")]))) ∧
    (likeOnSuccess (lit "p1") (.arr [.str (lit "u1"), .str (lit "u2")])
        (cacheOf (.arr [scenarioPost]))).2.posts
      = .arr [.obj [(lit "_id", .str (lit "p1")),
                    (lit "likes", .arr [.str (lit "u1"), .str (lit "u2")]),
                    (lit "comments", .arr [])]] :=
  ⟨like_success_sets_server_likes (lit "p1") (.arr [.str (lit "u1"), .str (lit "u2")])
    [scenarioPost] (cacheOf (.arr [scenarioPost]))
    (by
      intro p hp
      simp only [List.mem_singleton] at hp
      subst hp
      exact ⟨fun h => (by cases h), fun h => (by cases h)⟩)
    rfl, rfl⟩
/-- The comment updater on a cached list without nullish entries: it returns a
list of the same length, where an entry with the id is the returned post and any
other entry is unchanged. -/
theorem commentUpdater_arr (postId : JsString) (updatedPost : JsVal) (ps : List JsVal)
    (hps : ∀ p ∈ ps, p ≠ JsVal.null ∧ p ≠ JsVal.undefined) :
    ∃ qs, commentUpdater postId updatedPost (.arr ps) = .ok (.arr qs) ∧
      qs.length = ps.length ∧
      ∀ (i : Nat) (p : JsVal), ps[i]? = some p →
        (idIs p postId = .ok true → qs[i]? = some updatedPost) ∧
        (idIs p postId = .ok false → qs[i]? = some p) := by
  obtain ⟨qs, hqs, hlen, hget⟩ := mapItems_total
    (fun p =>
      match idIs p postId with
      | .error e => .error e
      | .ok true => .ok updatedPost
      | .ok false => .ok p) ps
    (fun p hp => by
      obtain ⟨b, hb⟩ := idIs_total p postId (hps p hp).1 (hps p hp).2
      cases b <;> simp [hb])
  refine ⟨qs, by simp [commentUpdater, optionalMap, hqs], hlen, ?_⟩
  intro i p hi
  obtain ⟨q, hq, hf⟩ := hget i p hi
  constructor
  · intro hid
    simp only [hid] at hf
    cases hf
    exact hq
  · intro hid
    simp only [hid] at hf
    cases hf
    exact hq

/-- C9: for every cached post list and post id, the success handler of the
comment mutation ends normally and leaves a list of the same length in which
each entry with that id is exactly the post the server returned and every other
entry is as before; in the scenario with the post "p1" cached and the server
returning it with the comment "c1", the cached list is then the returned post
alone, and reading "p1" gives the returned post. The identity field, written
`id` in the specification, is `_id` in the code. -/
theorem comment_success_replaces_entry (postId : JsString) (updatedPost : JsVal)
    (ps : List JsVal) (s : PostState)
    (hps : ∀ p ∈ ps, p ≠ JsVal.null ∧ p ≠ JsVal.undefined)
    (hcache : s.posts = .arr ps) :
    (∃ qs, commentOnSuccess postId updatedPost s =
        (.ok (), { posts := .arr qs, postsInvalidated := s.postsInvalidated,
                   commentText := [],
                   toasts := s.toasts ++ [.success (lit "Comment added!")] }) ∧
      qs.length = ps.length ∧
      ∀ (i : Nat) (p : JsVal), ps[i]? = some p →
        (idIs p postId = .ok true → qs[i]? = some updatedPost) ∧
        (idIs p postId = .ok false → qs[i]? = some p)) ∧
    (commentOnSuccess (lit "p1") scenarioReturned (cacheOf (.arr [scenarioPost]))).2.posts
      = .arr [scenarioReturned] ∧
    readPost (commentOnSuccess (lit "p1") scenarioReturned
        (cacheOf (.arr [scenarioPost]))).2.posts (lit "p1") = some scenarioReturned := by
  refine ⟨?_, rfl, rfl⟩
  obtain ⟨qs, hqs, hlen, hget⟩ := commentUpdater_arr postId updatedPost ps hps
  exact ⟨qs, by simp [commentOnSuccess, setQueryData, setCommentText, showToast, hcache, hqs],
    hlen, hget⟩

/-- Witness of C9: the scenario of the specification. -/
theorem comment_success_replaces_entry_witness :
    (commentOnSuccess (lit "p1") scenarioReturned (cacheOf (.arr [scenarioPost]))).2.posts
      = .arr [scenarioReturned] ∧
    readPost (commentOnSuccess (lit "p1") scenarioReturned
        (cacheOf (.arr [scenarioPost]))).2.posts (lit "p1") = some scenarioReturned :=
  (comment_success_replaces_entry (lit "p1") scenarioReturned [scenarioPost]
    (cacheOf (.arr [scenarioPost]))
    (by
      intro p hp
      simp only [List.mem_singleton] at hp
      subst hp
      exact ⟨fun h => (by cases h), fun h => (by cases h)⟩)
    rfl).2

/-- C10, as the code has it: the success handler of `deletePost` removes nothing.
It shows the success message and marks the posts query invalid; the cached post
list is the one from before, so reading any id gives what it gave before. -/
theorem delete_success_invalidates_only (s : PostState) :
    deleteOnSuccess s =
      (.ok (), { posts := s.posts, postsInvalidated := true, commentText := s.commentText,
                 toasts := s.toasts ++ [.success (lit "Post deleted successfully")] }) ∧
    (deleteOnSuccess s).2.posts = s.posts ∧
    ∀ postId, readPost (deleteOnSuccess s).2.posts postId = readPost s.posts postId := by
  refine ⟨rfl, rfl, fun _ => rfl⟩

/-- Counterexample to C10: with the post "p1" cached, after the success handler
of `deletePost` the cached list still holds "p1", and reading "p1" gives it. -/
theorem delete_success_keeps_entry :
    (deleteOnSuccess (cacheOf (.arr [scenarioPost]))).1 = .ok () ∧
    (deleteOnSuccess (cacheOf (.arr [scenarioPost]))).2.posts = .arr [scenarioPost] ∧
    readPost (deleteOnSuccess (cacheOf (.arr [scenarioPost]))).2.posts (lit "p1")
      = some scenarioPost :=
  ⟨rfl, rfl, rfl⟩

/-! ## Failed mutations -/

theorem mutationFn_failed (message : JsString) (r : FetchResult)
    (h : ∀ body, r ≠ .response true (some body)) :
    ∃ e, mutationFn message r = .error e := by
  cases r with
  | rejected => exact ⟨_, rfl⟩
  | response ok body =>
    cases ok with
    | false => exact ⟨_, rfl⟩
    | true =>
      cases body with
      | none => exact ⟨_, rfl⟩
      | some b => exact absurd rfl (h b)

/-- C11: when the like request fails (the fetch is rejected, the response is not
ok, or its body is not JSON), `likePost` leaves the cached post list exactly as
it was: the success handler does not run, and the error handler only shows a
toast with the error's message. -/
theorem like_failure_leaves_cache (platform : JsError → JsString) (postId : JsString)
    (r : FetchResult) (s : PostState)
    (hfail : ∀ body, r ≠ .response true (some body)) :
    ∃ e, mutationFn (lit "Something went wrong") r = .error e ∧
      likePost platform postId r s =
        (.ok (), { posts := s.posts, postsInvalidated := s.postsInvalidated,
                   commentText := s.commentText,
                   toasts := s.toasts ++ [.error (errorMessage platform e)] }) ∧
      (likePost platform postId r s).2.posts = s.posts := by
  obtain ⟨e, he⟩ := mutationFn_failed (lit "Something went wrong") r hfail
  have hrun : likePost platform postId r s =
      (.ok (), { posts := s.posts, postsInvalidated := s.postsInvalidated,
                 commentText := s.commentText,
                 toasts := s.toasts ++ [.error (errorMessage platform e)] }) := by
    simp [likePost, mutate, he, toastOnError, showToast]
  exact ⟨e, he, hrun, by rw [hrun]⟩

/-- Witness of C11: a response with status 500 while the post "p1" is cached. -/
theorem like_failure_leaves_cache_witness :
    ∃ e, mutationFn (lit "Something went wrong") (responseOf 500 none) = .error e ∧
      likePost chromeMessages (lit "p1") (responseOf 500 none) (cacheOf (.arr [scenarioPost])) =
        (.ok (), { posts := (cacheOf (.arr [scenarioPost])).posts,
                   postsInvalidated := (cacheOf (.arr [scenarioPost])).postsInvalidated,
                   commentText := (cacheOf (.arr [scenarioPost])).commentText,
                   toasts := (cacheOf (.arr [scenarioPost])).toasts ++
                     [.error (errorMessage chromeMessages e)] }) ∧
      (likePost chromeMessages (lit "p1") (responseOf 500 none)
        (cacheOf (.arr [scenarioPost]))).2.posts = (cacheOf (.arr [scenarioPost])).posts :=
  like_failure_leaves_cache chromeMessages (lit "p1") (responseOf 500 none)
    (cacheOf (.arr [scenarioPost])) (by intro body h; cases h)

/-- C12: when the comment request fails, `addComment` leaves the cached post list
exactly as it was and does not clear the typed comment text; it only shows a
toast with the error's message. -/
theorem comment_failure_leaves_cache_and_text (platform : JsError → JsString)
    (postId : JsString) (r : FetchResult) (s : PostState)
    (hfail : ∀ body, r ≠ .response true (some body)) :
    ∃ e, mutationFn (lit "Couldn't add comment") r = .error e ∧
      addComment platform postId r s =
        (.ok (), { posts := s.posts, postsInvalidated := s.postsInvalidated,
                   commentText := s.commentText,
                   toasts := s.toasts ++ [.error (errorMessage platform e)] }) ∧
      (addComment platform postId r s).2.posts = s.posts ∧
      (addComment platform postId r s).2.commentText = s.commentText := by
  obtain ⟨e, he⟩ := mutationFn_failed (lit "Couldn't add comment") r hfail
  have hrun : addComment platform postId r s =
      (.ok (), { posts := s.posts, postsInvalidated := s.postsInvalidated,
                 commentText := s.commentText,
                 toasts := s.toasts ++ [.error (errorMessage platform e)] }) := by
    simp [addComment, mutate, he, toastOnError, showToast]
  exact ⟨e, he, hrun, by rw [hrun], by rw [hrun]⟩

/-- Witness of C12: a rejected request while "great film" is typed. -/
theorem comment_failure_leaves_cache_and_text_witness :
    (addComment chromeMessages (lit "p1") .rejected (cacheOf (.arr [scenarioPost]))).2.posts
      = .arr [scenarioPost] ∧
    (addComment chromeMessages (lit "p1") .rejected
      (cacheOf (.arr [scenarioPost]))).2.commentText = lit "great film" :=
  match comment_failure_leaves_cache_and_text chromeMessages (lit "p1") .rejected
      (cacheOf (.arr [scenarioPost])) (by intro body h; cases h) with
  | ⟨_, _, _, h1, h2⟩ => ⟨h1, h2⟩

/-- C13: when the delete request fails, `deletePost` changes nothing: the cached
post list is the one from before, so the post is still read with its prior
content, and the posts query is not invalidated. -/
theorem delete_failure_changes_nothing (r : FetchResult) (s : PostState)
    (hfail : ∀ body, r ≠ .response true (some body)) :
    deletePost r s = (.ok (), s) ∧
    (deletePost r s).2.posts = s.posts ∧
    (deletePost r s).2.postsInvalidated = s.postsInvalidated ∧
    ∀ postId, readPost (deletePost r s).2.posts postId = readPost s.posts postId := by
  obtain ⟨e, he⟩ := mutationFn_failed (lit "Something went wrong") r hfail
  have hrun : deletePost r s = (.ok (), s) := by
    simp [deletePost, mutate, he]
  exact ⟨hrun, by rw [hrun], by rw [hrun], fun _ => by rw [hrun]⟩

/-- Witness of C13: a response with status 404 while the post "p1" is cached. -/
theorem delete_failure_changes_nothing_witness :
    deletePost (responseOf 404 (some notFoundBody)) (cacheOf (.arr [scenarioPost]))
      = (.ok (), cacheOf (.arr [scenarioPost])) ∧
    readPost (deletePost (responseOf 404 (some notFoundBody))
      (cacheOf (.arr [scenarioPost]))).2.posts (lit "p1") = some scenarioPost :=
  have h := delete_failure_changes_nothing (responseOf 404 (some notFoundBody))
    (cacheOf (.arr [scenarioPost])) (by intro body h; cases h)
  ⟨h.1, (h.2.2.2 (lit "p1")).trans rfl⟩

/-- C14 at a failed delete request: with the response status 500 and the post
"p1" cached, `deletePost` shows no toast and leaves the state as it was, while
`likePost` and `addComment` at the same response each show an error toast with
the message of the thrown error. -/
theorem delete_failure_is_silent :
    deletePost (responseOf 500 none) (cacheOf (.arr [scenarioPost]))
      = (.ok (), cacheOf (.arr [scenarioPost])) ∧
    (deletePost (responseOf 500 none) (cacheOf (.arr [scenarioPost]))).2.toasts = [] ∧
    (likePost chromeMessages (lit "p1") (responseOf 500 none)
      (cacheOf (.arr [scenarioPost]))).2.toasts = [.error (lit "Something went wrong")] ∧
    (addComment chromeMessages (lit "p1") (responseOf 500 none)
      (cacheOf (.arr [scenarioPost]))).2.toasts = [.error (lit "Couldn't add comment")] :=
  ⟨rfl, rfl, rfl, rfl⟩

theorem statusOk_false (status : Nat) (h : ¬ (200 ≤ status ∧ status ≤ 299)) :
    statusOk status = false := by
  simp [statusOk, h]

/-- C17, as the code has it: every response whose status is outside 200 to 299
is a failure of the mutation, whatever the status code, and the text of the
failure is the fixed message of the mutation, whatever the body carries: the
`mutationFn` throws an Error with that message without reading the body, and the
toast of `likePost` reads "Something went wrong", that of `addComment`
"Couldn't add comment". -/
theorem failure_text_is_fixed (platform : JsError → JsString) (postId : JsString)
    (status : Nat) (body : Option JsVal) (s : PostState)
    (hstatus : ¬ (200 ≤ status ∧ status ≤ 299)) :
    (∀ message, mutationFn message (responseOf status body) = .error (.error message)) ∧
    (likePost platform postId (responseOf status body) s).2.toasts
      = s.toasts ++ [.error (lit "Something went wrong")] ∧
    (addComment platform postId (responseOf status body) s).2.toasts
      = s.toasts ++ [.error (lit "Couldn't add comment")] := by
  have hok := statusOk_false status hstatus
  refine ⟨fun message => by simp [responseOf, hok, mutationFn], ?_, ?_⟩
  · simp [likePost, mutate, responseOf, hok, mutationFn, toastOnError, showToast, errorMessage]
  · simp [addComment, mutate, responseOf, hok, mutationFn, toastOnError, showToast,
      errorMessage]

/-- Witness of the amended C17: status 404 with a body that carries the error
string "Post not found". -/
theorem failure_text_is_fixed_witness :
    (∀ message, mutationFn message (responseOf 404 (some notFoundBody))
      = .error (.error message)) ∧
    (likePost chromeMessages (lit "p1") (responseOf 404 (some notFoundBody))
      (cacheOf (.arr [scenarioPost]))).2.toasts
      = (cacheOf (.arr [scenarioPost])).toasts ++ [.error (lit "Something went wrong")] ∧
    (addComment chromeMessages (lit "p1") (responseOf 404 (some notFoundBody))
      (cacheOf (.arr [scenarioPost]))).2.toasts
      = (cacheOf (.arr [scenarioPost])).toasts ++ [.error (lit "Couldn't add comment")] :=
  failure_text_is_fixed chromeMessages (lit "p1") 404 (some notFoundBody)
    (cacheOf (.arr [scenarioPost])) (by decide)

/-- Counterexample to C17: the response has status 404 and its body carries the
error string "Post not found"; the toast of `likePost` reads "Something went
wrong", and the body's string is shown nowhere. -/
theorem body_error_string_not_surfaced :
    member notFoundBody (lit "error") = .ok (.str (lit "Post not found")) ∧
    (likePost chromeMessages (lit "p1") (responseOf 404 (some notFoundBody))
      (cacheOf (.arr [scenarioPost]))).2.toasts = [.error (lit "Something went wrong")] ∧
    lit "Something went wrong" ≠ lit "Post not found" :=
  ⟨rfl, rfl, by decide⟩

/-! ## Frame and invariant of the success handlers -/

/-- The like updater, entry by entry: an entry with the id becomes the spread
copy with `likes` set, any other entry stays. -/
theorem likeUpdater_entries (postId : JsString) (likes : JsVal) (ps : List JsVal)
    (hps : ∀ p ∈ ps, p ≠ JsVal.null ∧ p ≠ JsVal.undefined) :
    ∃ qs, likeUpdater postId likes (.arr ps) = .ok (.arr qs) ∧ qs.length = ps.length ∧
      ∀ (i : Nat) (p : JsVal), ps[i]? = some p →
        (idIs p postId = .ok true →
          qs[i]? = some (.obj (setProp (ownProps p) (lit "likes") likes))) ∧
        (idIs p postId = .ok false → qs[i]? = some p) := by
  obtain ⟨qs, hqs, hlen, hget⟩ := mapItems_total
    (fun p =>
      match idIs p postId with
      | .error e => .error e
      | .ok true => .ok (.obj (setProp (ownProps p) (lit "likes") likes))
      | .ok false => .ok p) ps
    (fun p hp => by
      obtain ⟨b, hb⟩ := idIs_total p postId (hps p hp).1 (hps p hp).2
      cases b <;> simp [hb])
  refine ⟨qs, by simp [likeUpdater, optionalMap, hqs], hlen, ?_⟩
  intro i p hi
  obtain ⟨q, hq, hf⟩ := hget i p hi
  constructor
  · intro hid
    simp only [hid] at hf
    cases hf
    exact hq
  · intro hid
    simp only [hid] at hf
    cases hf
    exact hq

/-- What the like success handler leaves when a list is cached. -/
theorem likeOnSuccess_run (postId : JsString) (likes : JsVal) (ps qs : List JsVal)
    (s : PostState) (hcache : s.posts = .arr ps)
    (hqs : likeUpdater postId likes (.arr ps) = .ok (.arr qs)) :
    likeOnSuccess postId likes s =
      (.ok (), { posts := .arr qs, postsInvalidated := s.postsInvalidated,
                 commentText := s.commentText, toasts := s.toasts }) := by
  simp [likeOnSuccess, setQueryData, hcache, hqs]

/-- What the comment success handler leaves when a list is cached. -/
theorem commentOnSuccess_run (postId : JsString) (updatedPost : JsVal) (ps qs : List JsVal)
    (s : PostState) (hcache : s.posts = .arr ps)
    (hqs : commentUpdater postId updatedPost (.arr ps) = .ok (.arr qs)) :
    commentOnSuccess postId updatedPost s =
      (.ok (), { posts := .arr qs, postsInvalidated := s.postsInvalidated,
                 commentText := [],
                 toasts := s.toasts ++ [.success (lit "Comment added!")] }) := by
  simp [commentOnSuccess, setQueryData, setCommentText, showToast, hcache, hqs]

/-- The spread copy with `likes` set reads every other property as the post did. -/
theorem member_liked_other (p : JsVal) (postId : JsString) (likes : JsVal) (key : JsString)
    (hid : idIs p postId = .ok true) (hkey : key ≠ lit "likes") :
    member (.obj (setProp (ownProps p) (lit "likes") likes)) key = member p key := by
  obtain ⟨props, rfl, _⟩ := idIs_true p postId hid
  simp [member, ownProps, lookupProp_setProp_other _ _ _ _ hkey]

/-- C15: the success handlers of the like and the comment mutation neither
reorder nor resize the cached post list: the list they leave has the same
length, every post whose id is not the mutated id is unchanged at its index,
and, for the like handler, the mutated post reads every property other than
`likes` as before. -/
theorem success_handlers_keep_frame (postId : JsString) (likes updatedPost : JsVal)
    (ps : List JsVal) (s : PostState)
    (hps : ∀ p ∈ ps, p ≠ JsVal.null ∧ p ≠ JsVal.undefined)
    (hcache : s.posts = .arr ps) :
    (∃ qs, (likeOnSuccess postId likes s).1 = .ok () ∧
      (likeOnSuccess postId likes s).2.posts = .arr qs ∧ qs.length = ps.length ∧
      ∀ (i : Nat) (p : JsVal), ps[i]? = some p →
        (idIs p postId = .ok false → qs[i]? = some p) ∧
        (idIs p postId = .ok true →
          ∃ q, qs[i]? = some q ∧
            ∀ key, key ≠ lit "likes" → member q key = member p key)) ∧
    (∃ qs, (commentOnSuccess postId updatedPost s).1 = .ok () ∧
      (commentOnSuccess postId updatedPost s).2.posts = .arr qs ∧ qs.length = ps.length ∧
      ∀ (i : Nat) (p : JsVal), ps[i]? = some p →
        idIs p postId = .ok false → qs[i]? = some p) := by
  constructor
  · obtain ⟨qs, hqs, hlen, hget⟩ := likeUpdater_entries postId likes ps hps
    rw [likeOnSuccess_run postId likes ps qs s hcache hqs]
    refine ⟨qs, rfl, rfl, hlen, ?_⟩
    intro i p hi
    refine ⟨(hget i p hi).2, fun hid => ⟨_, (hget i p hi).1 hid, ?_⟩⟩
    intro key hkey
    exact member_liked_other p postId likes key hid hkey
  · obtain ⟨qs, hqs, hlen, hget⟩ := commentUpdater_arr postId updatedPost ps hps
    rw [commentOnSuccess_run postId updatedPost ps qs s hcache hqs]
    exact ⟨qs, rfl, rfl, hlen, fun i p hi => (hget i p hi).2⟩

/-- Witness of C15: the cache holds "p1" and a second post "p2"; the like and
the comment for "p1" leave "p2" at index 1. -/
theorem success_handlers_keep_frame_witness :
    (likeOnSuccess (lit "p1") (.arr []) (cacheOf (.arr [scenarioPost,
        .obj [(lit "_id", .str (lit "p2"))]]))).2.posts
      = .arr [.obj [(lit "_id", .str (lit "p1")), (lit "likes", .arr []),
                    (lit "comments", .arr [])],
              .obj [(lit "_id", .str (lit "p2"))]] ∧
    ∃ qs, (commentOnSuccess (lit "p1") scenarioReturned (cacheOf (.arr [scenarioPost,
        .obj [(lit "_id", .str (lit "p2"))]]))).1 = .ok () ∧
      (commentOnSuccess (lit "p1") scenarioReturned (cacheOf (.arr [scenarioPost,
        .obj [(lit "_id", .str (lit "p2"))]]))).2.posts = .arr qs ∧
      qs.length = [scenarioPost, JsVal.obj [(lit "_id", .str (lit "p2"))]].length ∧
      ∀ (i : Nat) (p : JsVal),
        [scenarioPost, JsVal.obj [(lit "_id", .str (lit "p2"))]][i]? = some p →
        idIs p (lit "p1") = .ok false → qs[i]? = some p :=
  ⟨rfl, (success_handlers_keep_frame (lit "p1") (.arr []) scenarioReturned
    [scenarioPost, .obj [(lit "_id", .str (lit "p2"))]]
    (cacheOf (.arr [scenarioPost, .obj [(lit "_id", .str (lit "p2"))]]))
    (by
      intro p hp
      simp only [List.mem_cons, List.mem_singleton, List.not_mem_nil, or_false] at hp
      rcases hp with rfl | rfl
      · exact ⟨fun h => (by cases h), fun h => (by cases h)⟩
      · exact ⟨fun h => (by cases h), fun h => (by cases h)⟩)
    rfl).2⟩

theorem postLikes_liked (p : JsVal) (likes : JsVal) :
    postLikes (.obj (setProp (ownProps p) (lit "likes") likes)) = arrayItems likes := by
  simp [postLikes, member, lookupProp_setProp_same]

/-- C16, as the code has it: the handlers store the server's answer as it comes,
so they keep the `likes` duplicate-free exactly as far as the server does. If no
cached post holds a user id twice before, then after the like success handler
none does provided the returned likes hold no id twice, and after the comment
success handler none does provided the returned post's likes hold no id twice. -/
theorem likes_distinct_if_answer_distinct (postId : JsString) (likes updatedPost : JsVal)
    (ps : List JsVal) (s : PostState)
    (hps : ∀ p ∈ ps, p ≠ JsVal.null ∧ p ≠ JsVal.undefined)
    (hcache : s.posts = .arr ps) (hinv : LikesDistinct s.posts) :
    ((arrayItems likes).Nodup → LikesDistinct (likeOnSuccess postId likes s).2.posts) ∧
    ((postLikes updatedPost).Nodup →
      LikesDistinct (commentOnSuccess postId updatedPost s).2.posts) := by
  rw [hcache] at hinv
  constructor
  · intro hlikes
    obtain ⟨qs, hqs, hlen, hget⟩ := likeUpdater_entries postId likes ps hps
    rw [likeOnSuccess_run postId likes ps qs s hcache hqs]
    intro q hq
    simp only [arrayItems] at hq
    obtain ⟨i, hi, hqi⟩ := List.getElem_of_mem hq
    have hi2 : i < ps.length := by omega
    have hmem : ps[i] ∈ ps := List.getElem_mem hi2
    obtain ⟨h1, h2⟩ := hget i ps[i] (List.getElem?_eq_getElem hi2)
    have hqi2 : qs[i]? = some q := by rw [List.getElem?_eq_getElem hi, hqi]
    obtain ⟨b, hb⟩ := idIs_total ps[i] postId (hps _ hmem).1 (hps _ hmem).2
    cases b with
    | true =>
      have := h1 hb
      rw [hqi2] at this
      cases this
      rw [postLikes_liked]
      exact hlikes
    | false =>
      have := h2 hb
      rw [hqi2] at this
      cases this
      exact hinv _ (by simp [arrayItems])
  · intro hpost
    obtain ⟨qs, hqs, hlen, hget⟩ := commentUpdater_arr postId updatedPost ps hps
    rw [commentOnSuccess_run postId updatedPost ps qs s hcache hqs]
    intro q hq
    simp only [arrayItems] at hq
    obtain ⟨i, hi, hqi⟩ := List.getElem_of_mem hq
    have hi2 : i < ps.length := by omega
    have hmem : ps[i] ∈ ps := List.getElem_mem hi2
    obtain ⟨h1, h2⟩ := hget i ps[i] (List.getElem?_eq_getElem hi2)
    have hqi2 : qs[i]? = some q := by rw [List.getElem?_eq_getElem hi, hqi]
    obtain ⟨b, hb⟩ := idIs_total ps[i] postId (hps _ hmem).1 (hps _ hmem).2
    cases b with
    | true =>
      have := h1 hb
      rw [hqi2] at this
      cases this
      exact hpost
    | false =>
      have := h2 hb
      rw [hqi2] at this
      cases this
      exact hinv _ (by simp [arrayItems])

theorem likesDistinct_scenario : LikesDistinct (.arr [scenarioPost]) := by
  intro p hp
  simp only [arrayItems, List.mem_singleton] at hp
  subst hp
  show [JsVal.str (lit "u1")].Nodup
  simp

/-- Witness of the amended C16: the post "p1" with likes ["u1"] is cached and the
server returns the likes ["u1", "u2"]. -/
theorem likes_distinct_if_answer_distinct_witness :
    LikesDistinct (likeOnSuccess (lit "p1") (.arr [.str (lit "u1"), .str (lit "u2")])
      (cacheOf (.arr [scenarioPost]))).2.posts :=
  (likes_distinct_if_answer_distinct (lit "p1") (.arr [.str (lit "u1"), .str (lit "u2")])
    scenarioReturned [scenarioPost] (cacheOf (.arr [scenarioPost]))
    (by
      intro p hp
      simp only [List.mem_singleton] at hp
      subst hp
      exact ⟨fun h => (by cases h), fun h => (by cases h)⟩)
    rfl likesDistinct_scenario).1
    (by
      show [JsVal.str (lit "u1"), JsVal.str (lit "u2")].Nodup
      have hne : lit "u1" ≠ lit "u2" := by decide
      simp [hne])

/-- Counterexample to C16: the cached likes of "p1" are ["u1"], without a
duplicate; the server answers the like with ["u1", "u1"], and after the success
handler the cached likes of "p1" hold "u1" twice. -/
theorem duplicate_likes_stored :
    LikesDistinct (cacheOf (.arr [scenarioPost])).posts ∧
    (likeOnSuccess (lit "p1") (.arr [.str (lit "u1"), .str (lit "u1")])
      (cacheOf (.arr [scenarioPost]))).2.posts
      = .arr [.obj [(lit "_id", .str (lit "p1")),
                    (lit "likes", .arr [.str (lit "u1"), .str (lit "u1")]),
                    (lit "comments", .arr [])]] ∧
    ¬ LikesDistinct (likeOnSuccess (lit "p1") (.arr [.str (lit "u1"), .str (lit "u1")])
      (cacheOf (.arr [scenarioPost]))).2.posts := by
  refine ⟨likesDistinct_scenario, rfl, ?_⟩
  intro h
  have h1 : ([JsVal.str (lit "u1"), JsVal.str (lit "u1")]).Nodup :=
    h (.obj [(lit "_id", .str (lit "p1")),
             (lit "likes", .arr [.str (lit "u1"), .str (lit "u1")]),
             (lit "comments", .arr [])]) (List.mem_singleton.mpr rfl)
  simp at h1

/-! ## Two mutations on one post -/

/-- A list of the same length whose entry at each index of `ps` is not nullish
has no nullish entry. -/
theorem entries_defined (ps qs : List JsVal) (hlen : qs.length = ps.length)
    (hget : ∀ (i : Nat) (p : JsVal), ps[i]? = some p →
      ∃ q, qs[i]? = some q ∧ q ≠ JsVal.null ∧ q ≠ JsVal.undefined) :
    ∀ q ∈ qs, q ≠ JsVal.null ∧ q ≠ JsVal.undefined := by
  intro q hq
  obtain ⟨i, hi, hqi⟩ := List.getElem_of_mem hq
  have hi2 : i < ps.length := by omega
  obtain ⟨q2, hq2, hdef⟩ := hget i ps[i] (List.getElem?_eq_getElem hi2)
  rw [List.getElem?_eq_getElem hi, hqi] at hq2
  cases hq2
  exact hdef

/-- C18, as the code has it: the comment handler replaces the whole entry, the
like handler only its `likes`. When the like's answer arrives first and the
comment's last, the entry is the post returned for the comment, and the likes
returned for the like are gone. When the comment's answer arrives first and the
like's last, the entry is the post returned for the comment with its `likes`
replaced by the likes returned for the like: the last answer decides the
`likes`, the answer before it every other field. -/
theorem last_answer_wins_its_fields (postId : JsString) (likes updatedPost : JsVal)
    (ps : List JsVal) (s : PostState)
    (hps : ∀ p ∈ ps, p ≠ JsVal.null ∧ p ≠ JsVal.undefined)
    (hcache : s.posts = .arr ps) :
    (∃ qs, (commentOnSuccess postId updatedPost (likeOnSuccess postId likes s).2).2.posts
        = .arr qs ∧ qs.length = ps.length ∧
      ∀ (i : Nat) (p : JsVal), ps[i]? = some p → idIs p postId = .ok true →
        qs[i]? = some updatedPost) ∧
    (idIs updatedPost postId = .ok true →
      ∃ qs, (likeOnSuccess postId likes (commentOnSuccess postId updatedPost s).2).2.posts
          = .arr qs ∧ qs.length = ps.length ∧
        ∀ (i : Nat) (p : JsVal), ps[i]? = some p → idIs p postId = .ok true →
          qs[i]? = some (.obj (setProp (ownProps updatedPost) (lit "likes") likes))) := by
  constructor
  · obtain ⟨q1, hq1, hlen1, hget1⟩ := likeUpdater_entries postId likes ps hps
    have hdef1 : ∀ q ∈ q1, q ≠ JsVal.null ∧ q ≠ JsVal.undefined :=
      entries_defined ps q1 hlen1 (fun i p hi => by
        have hmem : p ∈ ps := List.getElem?_mem hi
        obtain ⟨b, hb⟩ := idIs_total p postId (hps p hmem).1 (hps p hmem).2
        cases b with
        | true =>
          exact ⟨_, (hget1 i p hi).1 hb, fun h => (by cases h), fun h => (by cases h)⟩
        | false => exact ⟨p, (hget1 i p hi).2 hb, hps p hmem⟩)
    obtain ⟨q2, hq2, hlen2, hget2⟩ := commentUpdater_arr postId updatedPost q1 hdef1
    rw [likeOnSuccess_run postId likes ps q1 s hcache hq1]
    rw [commentOnSuccess_run postId updatedPost q1 q2 _ rfl hq2]
    refine ⟨q2, rfl, by omega, ?_⟩
    intro i p hi hid
    have h1 := (hget1 i p hi).1 hid
    obtain ⟨props, rfl, hl⟩ := idIs_true p postId hid
    exact (hget2 i _ h1).1 (liked_entry props postId likes hl).1
  · intro hret
    obtain ⟨rprops, hrobj, _⟩ := idIs_true updatedPost postId hret
    obtain ⟨q1, hq1, hlen1, hget1⟩ := commentUpdater_arr postId updatedPost ps hps
    have hdef1 : ∀ q ∈ q1, q ≠ JsVal.null ∧ q ≠ JsVal.undefined :=
      entries_defined ps q1 hlen1 (fun i p hi => by
        have hmem : p ∈ ps := List.getElem?_mem hi
        obtain ⟨b, hb⟩ := idIs_total p postId (hps p hmem).1 (hps p hmem).2
        cases b with
        | true =>
          refine ⟨_, (hget1 i p hi).1 hb, ?_, ?_⟩
          · rw [hrobj]; intro h; cases h
          · rw [hrobj]; intro h; cases h
        | false => exact ⟨p, (hget1 i p hi).2 hb, hps p hmem⟩)
    obtain ⟨q2, hq2, hlen2, hget2⟩ := likeUpdater_entries postId likes q1 hdef1
    rw [commentOnSuccess_run postId updatedPost ps q1 s hcache hq1]
    rw [likeOnSuccess_run postId likes q1 q2 _ rfl hq2]
    refine ⟨q2, rfl, by omega, ?_⟩
    intro i p hi hid
    exact (hget2 i _ ((hget1 i p hi).1 hid)).1 hret

/-- Witness of the amended C18: the scenario post is cached, the comment is
answered with the scenario's returned post and the like with ["u1", "u2"];
the comment's answer arrives first. -/
theorem last_answer_wins_its_fields_witness :
    ∃ qs, (likeOnSuccess (lit "p1") (.arr [.str (lit "u1"), .str (lit "u2")])
        (commentOnSuccess (lit "p1") scenarioReturned (cacheOf (.arr [scenarioPost]))).2).2.posts
          = .arr qs ∧ qs.length = [scenarioPost].length ∧
        ∀ (i : Nat) (p : JsVal), [scenarioPost][i]? = some p → idIs p (lit "p1") = .ok true →
          qs[i]? = some (.obj (setProp (ownProps scenarioReturned) (lit "likes")
            (.arr [.str (lit "u1"), .str (lit "u2")]))) :=
  (last_answer_wins_its_fields (lit "p1") (.arr [.str (lit "u1"), .str (lit "u2")])
    scenarioReturned [scenarioPost] (cacheOf (.arr [scenarioPost]))
    (by
      intro p hp
      simp only [List.mem_singleton] at hp
      subst hp
      exact ⟨fun h => (by cases h), fun h => (by cases h)⟩)
    rfl).2 rfl

/-- Counterexample to C18: the like's answer ["u1", "u2"] arrives last in both
runs, after a comment answered with the post with one comment in the first run
and with the post without comments in the second. The entry for "p1" has one
comment after the first run and none after the second, so the last answer alone
does not determine it. -/
theorem entry_depends_on_earlier_answer :
    (likeOnSuccess (lit "p1") (.arr [.str (lit "u1"), .str (lit "u2")])
        (commentOnSuccess (lit "p1") scenarioReturned
          (cacheOf (.arr [scenarioPost]))).2).2.posts
      = .arr [.obj [(lit "_id", .str (lit "p1")),
          (lit "likes", .arr [.str (lit "u1"), .str (lit "u2")]),
          (lit "comments", .arr [.obj [(lit "_id", .str (lit "c1")),
            (lit "text", .str (lit "great film")),
            (lit "authorStub", .obj [(lit "_id", .str (lit "u2")),
              (lit "username", .str (lit "bob"))])]])]] ∧
    (likeOnSuccess (lit "p1") (.arr [.str (lit "u1"), .str (lit "u2")])
        (commentOnSuccess (lit "p1") scenarioPost
          (cacheOf (.arr [scenarioPost]))).2).2.posts
      = .arr [.obj [(lit "_id", .str (lit "p1")),
          (lit "likes", .arr [.str (lit "u1"), .str (lit "u2")]),
          (lit "comments", .arr [])]] ∧
    (likeOnSuccess (lit "p1") (.arr [.str (lit "u1"), .str (lit "u2")])
        (commentOnSuccess (lit "p1") scenarioReturned
          (cacheOf (.arr [scenarioPost]))).2).2.posts
      ≠ (likeOnSuccess (lit "p1") (.arr [.str (lit "u1"), .str (lit "u2")])
        (commentOnSuccess (lit "p1") scenarioPost
          (cacheOf (.arr [scenarioPost]))).2).2.posts :=
  ⟨rfl, rfl, fun h =>
    absurd (congrArg (fun cache =>
      ((arrayItems cache).map fun p =>
        (arrayItems (lookupProp (ownProps p) (lit "comments"))).length)) h) (by decide)⟩

/-! ## Closing the modal while the requests are out -/

/-- With no event during the wait, the function with an event is the function. -/
theorem handleShowFollowersDuring_none (net : Nat → JsString → FetchResult)
    (order : List Nat) (user : JsVal) (w : World) :
    handleShowFollowersDuring (pure ()) net order user w
      = handleShowFollowers net order user w := by
  simp [handleShowFollowersDuring, handleShowFollowers, whileSuspended, Eff.tryFinally,
    Eff.tryCatch]
  rfl

theorem handleShowFollowingDuring_none (net : Nat → JsString → FetchResult)
    (order : List Nat) (user : JsVal) (w : World) :
    handleShowFollowingDuring (pure ()) net order user w
      = handleShowFollowing net order user w := by
  simp [handleShowFollowingDuring, handleShowFollowing, whileSuspended, Eff.tryFinally,
    Eff.tryCatch]
  rfl

/-- The effect of `handleShowFollowers` on the path that waits for requests, with
the modal closed during the wait. -/
theorem handleShowFollowersDuring_close_run (net : Nat → JsString → FetchResult)
    (order : List Nat) (user : JsVal) (items : List JsVal) (w : World)
    (hu : truthy user = true) (hrel : member user (lit "followers") = .ok (.arr items))
    (hfirst : typeof (itemAt items 0) ≠ .object) :
    handleShowFollowersDuring closeFollowersModal net order user w =
      (.ok (),
       { page := { w.page with
                   showFollowersModal := false
                   followersData := resolvedList net order (.arr items)
                   isLoadingFollowers := false },
         requests := w.requests ++ requestedFor items,
         console := w.console ++ consoleLabels net order (.arr items)
           (lit "Error fetching followers:") (lit "Error in followers modal:") }) := by
  have hp : isPopulated (.arr items) = false := by simp [isPopulated_arr, hfirst]
  unfold handleShowFollowersDuring resolvedList consoleLabels
  simp only [hu]
  cases hall : promiseAll order (settledFrom net 0 items) with
  | ok vs =>
    simp [hp, hall, hrel, truthy, isArray, arrayItems, Eff.tryFinally, Eff.tryCatch,
      Eff.ofExcept, setShowFollowersModal, setIsLoadingFollowers, setFollowersData,
      consoleError, startFetches_run, whileSuspended, closeFollowersModal]
  | error e =>
    cases hmin : minimalUsers items with
    | ok us =>
      simp [hp, hall, hmin, hrel, truthy, isArray, arrayItems, Eff.tryFinally, Eff.tryCatch,
        Eff.ofExcept, setShowFollowersModal, setIsLoadingFollowers, setFollowersData,
        consoleError, startFetches_run, whileSuspended, closeFollowersModal]
    | error e2 =>
      simp [hp, hall, hmin, hrel, truthy, isArray, arrayItems, Eff.tryFinally, Eff.tryCatch,
        Eff.ofExcept, setShowFollowersModal, setIsLoadingFollowers, setFollowersData,
        consoleError, startFetches_run, whileSuspended, closeFollowersModal]

/-- The effect of `handleShowFollowing` on the path that waits for requests, with
the modal closed during the wait. -/
theorem handleShowFollowingDuring_close_run (net : Nat → JsString → FetchResult)
    (order : List Nat) (user : JsVal) (items : List JsVal) (w : World)
    (hu : truthy user = true) (hrel : member user (lit "following") = .ok (.arr items))
    (hfirst : typeof (itemAt items 0) ≠ .object) :
    handleShowFollowingDuring closeFollowingModal net order user w =
      (.ok (),
       { page := { w.page with
                   showFollowingModal := false
                   followingData := resolvedList net order (.arr items)
                   isLoadingFollowing := false },
         requests := w.requests ++ requestedFor items,
         console := w.console ++ consoleLabels net order (.arr items)
           (lit "Error fetching following:") (lit "Error in following modal:") }) := by
  have hp : isPopulated (.arr items) = false := by simp [isPopulated_arr, hfirst]
  unfold handleShowFollowingDuring resolvedList consoleLabels
  simp only [hu]
  cases hall : promiseAll order (settledFrom net 0 items) with
  | ok vs =>
    simp [hp, hall, hrel, truthy, isArray, arrayItems, Eff.tryFinally, Eff.tryCatch,
      Eff.ofExcept, setShowFollowingModal, setIsLoadingFollowing, setFollowingData,
      consoleError, startFetches_run, whileSuspended, closeFollowingModal]
  | error e =>
    cases hmin : minimalUsers items with
    | ok us =>
      simp [hp, hall, hmin, hrel, truthy, isArray, arrayItems, Eff.tryFinally, Eff.tryCatch,
        Eff.ofExcept, setShowFollowingModal, setIsLoadingFollowing, setFollowingData,
        consoleError, startFetches_run, whileSuspended, closeFollowingModal]
    | error e2 =>
      simp [hp, hall, hmin, hrel, truthy, isArray, arrayItems, Eff.tryFinally, Eff.tryCatch,
        Eff.ofExcept, setShowFollowingModal, setIsLoadingFollowing, setFollowingData,
        consoleError, startFetches_run, whileSuspended, closeFollowingModal]

/-- C19, as the code has it: a superseded resolution is not discarded. When the
followers (or following) modal is closed after the handler issued its requests
and before they end, the handler on completion writes the resolved list to
`followersData` (`followingData`) all the same, the list it would have written
with the modal open, and clears the loading flag; the modal stays closed. -/
theorem closed_modal_still_written (net : Nat → JsString → FetchResult)
    (order : List Nat) (user : JsVal) (items : List JsVal) (w : World)
    (hu : truthy user = true) (_hne : items ≠ [])
    (hfirst : typeof (itemAt items 0) ≠ .object) :
    (member user (lit "followers") = .ok (.arr items) →
      (handleShowFollowersDuring closeFollowersModal net order user w).2.page.followersData
        = (handleShowFollowers net order user w).2.page.followersData ∧
      (handleShowFollowersDuring closeFollowersModal net order user w).2.page.followersData
        = resolvedList net order (.arr items) ∧
      (handleShowFollowersDuring closeFollowersModal net order user w).2.page.showFollowersModal
        = false ∧
      (handleShowFollowersDuring closeFollowersModal net order user w).2.page.isLoadingFollowers
        = false) ∧
    (member user (lit "following") = .ok (.arr items) →
      (handleShowFollowingDuring closeFollowingModal net order user w).2.page.followingData
        = (handleShowFollowing net order user w).2.page.followingData ∧
      (handleShowFollowingDuring closeFollowingModal net order user w).2.page.followingData
        = resolvedList net order (.arr items) ∧
      (handleShowFollowingDuring closeFollowingModal net order user w).2.page.showFollowingModal
        = false ∧
      (handleShowFollowingDuring closeFollowingModal net order user w).2.page.isLoadingFollowing
        = false) := by
  constructor
  · intro hrel
    rw [handleShowFollowersDuring_close_run net order user items w hu hrel hfirst,
      handleShowFollowers_run net order user _ w hu hrel]
    exact ⟨rfl, rfl, rfl, rfl⟩
  · intro hrel
    rw [handleShowFollowingDuring_close_run net order user items w hu hrel hfirst,
      handleShowFollowing_run net order user _ w hu hrel]
    exact ⟨rfl, rfl, rfl, rfl⟩

/-- Witness of the amended C19: the one follower "u1", whose request is rejected
after the modal was closed. -/
theorem closed_modal_still_written_witness :
    (handleShowFollowersDuring closeFollowersModal allFail [0]
        (profileWith (.arr [.str (lit "u1")])) initialWorld).2.page.followersData
      = (handleShowFollowers allFail [0]
        (profileWith (.arr [.str (lit "u1")])) initialWorld).2.page.followersData ∧
    (handleShowFollowersDuring closeFollowersModal allFail [0]
        (profileWith (.arr [.str (lit "u1")])) initialWorld).2.page.followersData
      = resolvedList allFail [0] (.arr [.str (lit "u1")]) ∧
    (handleShowFollowersDuring closeFollowersModal allFail [0]
        (profileWith (.arr [.str (lit "u1")])) initialWorld).2.page.showFollowersModal
      = false ∧
    (handleShowFollowersDuring closeFollowersModal allFail [0]
        (profileWith (.arr [.str (lit "u1")])) initialWorld).2.page.isLoadingFollowers
      = false :=
  (closed_modal_still_written allFail [0] (profileWith (.arr [.str (lit "u1")]))
    [.str (lit "u1")] initialWorld rfl (by simp) (by decide)).1 rfl

/-- Counterexample to C19: the followers modal is opened for the one follower
"u2" and closed while the request is out; when the request is answered, the
fetched body (an empty object here) is written to `followersData`, which was
empty, with the modal closed. -/
theorem closed_modal_list_written :
    initialWorld.page.followersData = [] ∧
    (handleShowFollowersDuring closeFollowersModal answersEmpty [0]
        (profileWith (.arr [.str (lit "u2")])) initialWorld).2.page.followersData
      = [.obj []] ∧
    (handleShowFollowersDuring closeFollowersModal answersEmpty [0]
        (profileWith (.arr [.str (lit "u2")])) initialWorld).2.page.showFollowersModal
      = false :=
  ⟨rfl, rfl, rfl⟩

/-! ## String ids never reach a catch block -/

/-- The promises of string ids are all fulfilled. -/
theorem settledFrom_strs (net : Nat → JsString → FetchResult) (ids : List JsString) (i : Nat) :
    ∃ vs : List JsVal, settledFrom net i (ids.map .str) = vs.map Except.ok := by
  obtain ⟨vs, hvs, _, _⟩ := settledFrom_fulfilled net (ids.map .str) i
    (fun j id hj => by
      simp only [List.getElem?_map, Option.map_eq_some'] at hj
      obtain ⟨s, _, rfl⟩ := hj
      exact ⟨_, settleUser_str _ s⟩)
  exact ⟨vs, hvs⟩

/-- C20: for a relation list whose elements are all strings, every per-item
promise of `handleShowFollowers` is fulfilled with a value, whatever its request
ends in, so `Promise.all` is fulfilled for every order of completion, and neither
`catch` block runs: the console, to which each of them writes first, is as
before, and the stored list is the one `Promise.all` gave. -/
theorem string_ids_reach_no_catch (net : Nat → JsString → FetchResult) (order : List Nat)
    (user : JsVal) (ids : List JsString) (w : World) (hu : truthy user = true)
    (hrel : member user (lit "followers") = .ok (.arr (ids.map .str))) :
    (∀ (r : FetchResult) (id : JsString), ∃ v, settleUser r (.str id) = .ok v) ∧
    (∃ promises, (startFetches net 0 (ids.map .str) w).1 = .ok promises ∧
      (∀ p ∈ promises, ∃ v, p = Except.ok v) ∧
      ∃ vs, promiseAll order promises = .ok vs ∧
        (handleShowFollowers net order user w).2.page.followersData = vs) ∧
    (handleShowFollowers net order user w).2.console = w.console := by
  obtain ⟨vs, hvs⟩ := settledFrom_strs net ids 0
  obtain ⟨out, hout, _, _⟩ := promiseAllFrom_fulfilled vs order
    (List.replicate (vs.map Except.ok).length .undefined) (by simp)
  have hall : promiseAll order (settledFrom net 0 (ids.map .str)) = .ok out := by
    rw [hvs]
    exact hout
  have hnp := isPopulated_strs ids
  refine ⟨fun r id => ⟨_, settleUser_str r id⟩, ?_, ?_⟩
  · refine ⟨settledFrom net 0 (ids.map .str), by rw [startFetches_run], ?_, out, hall, ?_⟩
    · intro p hp
      rw [hvs] at hp
      obtain ⟨v, _, rfl⟩ := List.mem_map.mp hp
      exact ⟨v, rfl⟩
    · rw [handleShowFollowers_run net order user _ w hu hrel]
      simp [resolvedList, hnp, truthy, isArray, arrayItems, hall]
  · rw [handleShowFollowers_run net order user _ w hu hrel]
    simp [consoleLabels, hnp, truthy, isArray, arrayItems, hall]

/-- Witness of C20: the ids "u1" and "u2" on a network that rejects every
request. -/
theorem string_ids_reach_no_catch_witness :
    (handleShowFollowers allFail [1, 0]
        (profileWith (.arr [.str (lit "u1"), .str (lit "u2")])) initialWorld).2.console
      = initialWorld.console ∧
    (handleShowFollowers allFail [1, 0]
        (profileWith (.arr [.str (lit "u1"), .str (lit "u2")])) initialWorld).2.page.followersData
      = [stubUser (lit "u1"), stubUser (lit "u2")] :=
  ⟨(string_ids_reach_no_catch allFail [1, 0]
      (profileWith (.arr [.str (lit "u1"), .str (lit "u2")])) [lit "u1", lit "u2"]
      initialWorld rfl rfl).2.2, rfl⟩

/-! ## The auth-user query -/

/-- C21: the auth-user query function never fails. For every outcome of the
request to /api/auth/me it returns a value: the parsed body when the response is
ok and its body is JSON, and the mock auth user `{_id: "user123", following: []}`
when the response is not ok, when the request is rejected and when the body
cannot be parsed. -/
theorem auth_query_never_fails (r : FetchResult) (w : World) :
    (∃ v, (authUserQueryFn r w).1 = .ok v) ∧
    (∀ body, r = .response true (some body) → (authUserQueryFn r w).1 = .ok body) ∧
    ((∀ body, r ≠ .response true (some body)) →
      (authUserQueryFn r w).1 =
        .ok (.obj [(lit "_id", .str (lit "user123")), (lit "following", .arr [])])) ∧
    (authUserQueryFn r w).2.requests = w.requests ++ [lit "/api/auth/me"] := by
  cases r with
  | rejected =>
    refine ⟨⟨_, rfl⟩, fun body h => (by cases h), fun _ => rfl, rfl⟩
  | response ok body =>
    cases ok with
    | false => refine ⟨⟨_, rfl⟩, fun b h => (by cases h), fun _ => rfl, rfl⟩
    | true =>
      cases body with
      | none => refine ⟨⟨_, rfl⟩, fun b h => (by cases h), fun _ => rfl, rfl⟩
      | some b =>
        refine ⟨⟨_, rfl⟩, fun b2 h => ?_, fun h => absurd rfl (h b), rfl⟩
        cases h
        rfl

/-- Witness of C21: a response with status 401, and an ok response with
`sampleBob` as body. -/
theorem auth_query_never_fails_witness :
    (authUserQueryFn (responseOf 401 none) initialWorld).1 = .ok mockAuthUser ∧
    (authUserQueryFn (.response true (some sampleBob)) initialWorld).1 = .ok sampleBob :=
  ⟨(auth_query_never_fails (responseOf 401 none) initialWorld).2.2.1
      (by intro body h; cases h),
   (auth_query_never_fails (.response true (some sampleBob)) initialWorld).2.1 sampleBob rfl⟩

/-! ## Relative time -/

/-- C24: `getRelativeTime` buckets the age `d` in whole seconds, the floor of the
millisecond difference divided by 1000, exhaustively and without overlap:
`d < 60`, negative `d` included, gives "Just now"; `60 ≤ d < 3600` gives
`floor(d/60)` and "m ago", the number in 1..59; `3600 ≤ d < 86400` gives
`floor(d/3600)` and "h ago", the number in 1..23; `86400 ≤ d < 604800` gives
`floor(d/86400)` and "d ago", the number in 1..6; `d ≥ 604800` gives the locale
date string. -/
theorem relative_time_buckets (localeDate : Int → JsString) (now date d : Int)
    (hd : d = Int.fdiv (now - date) 1000) :
    (1000 * d ≤ now - date ∧ now - date < 1000 * d + 1000) ∧
    (d < 60 → getRelativeTime localeDate now date = lit "Just now") ∧
    (60 ≤ d → d < 3600 →
      getRelativeTime localeDate now date = intToStr (Int.fdiv d 60) ++ lit "m ago" ∧
      1 ≤ Int.fdiv d 60 ∧ Int.fdiv d 60 ≤ 59) ∧
    (3600 ≤ d → d < 86400 →
      getRelativeTime localeDate now date = intToStr (Int.fdiv d 3600) ++ lit "h ago" ∧
      1 ≤ Int.fdiv d 3600 ∧ Int.fdiv d 3600 ≤ 23) ∧
    (86400 ≤ d → d < 604800 →
      getRelativeTime localeDate now date = intToStr (Int.fdiv d 86400) ++ lit "d ago" ∧
      1 ≤ Int.fdiv d 86400 ∧ Int.fdiv d 86400 ≤ 6) ∧
    (604800 ≤ d → getRelativeTime localeDate now date = localeDate date) := by
  have h1000 : Int.fdiv (now - date) 1000 = (now - date) / 1000 :=
    Int.fdiv_eq_ediv _ (by decide)
  have h60 : Int.fdiv d 60 = d / 60 := Int.fdiv_eq_ediv _ (by decide)
  have h3600 : Int.fdiv d 3600 = d / 3600 := Int.fdiv_eq_ediv _ (by decide)
  have h86400 : Int.fdiv d 86400 = d / 86400 := Int.fdiv_eq_ediv _ (by decide)
  rw [h1000] at hd
  refine ⟨by omega, ?_, ?_, ?_, ?_, ?_⟩
  · intro h
    simp only [getRelativeTime, h1000, ← hd]
    simp [h]
  · intro ha hb
    refine ⟨?_, by omega, by omega⟩
    simp only [getRelativeTime, h1000, ← hd]
    have : ¬ d < 60 := by omega
    simp [this, hb]
  · intro ha hb
    refine ⟨?_, by omega, by omega⟩
    simp only [getRelativeTime, h1000, ← hd]
    have h1 : ¬ d < 60 := by omega
    have h2 : ¬ d < 3600 := by omega
    simp [h1, h2, hb]
  · intro ha hb
    refine ⟨?_, by omega, by omega⟩
    simp only [getRelativeTime, h1000, ← hd]
    have h1 : ¬ d < 60 := by omega
    have h2 : ¬ d < 3600 := by omega
    have h3 : ¬ d < 86400 := by omega
    simp [h1, h2, h3, hb]
  · intro ha
    simp only [getRelativeTime, h1000, ← hd]
    have h1 : ¬ d < 60 := by omega
    have h2 : ¬ d < 3600 := by omega
    have h3 : ¬ d < 86400 := by omega
    have h4 : ¬ d < 604800 := by omega
    simp [h1, h2, h3, h4]

/-- Witness of C24: a timestamp 125999 ms in the past is in the minutes bucket
and shows "2m ago"; a timestamp in the future shows "Just now". -/
theorem relative_time_buckets_witness :
    (getRelativeTime dayNumberDate 125999 0 = intToStr (Int.fdiv 125 60) ++ lit "m ago" ∧
      1 ≤ Int.fdiv 125 60 ∧ Int.fdiv 125 60 ≤ 59) ∧
    getRelativeTime dayNumberDate 125999 0 = lit "2m ago" ∧
    getRelativeTime dayNumberDate 0 5000 = lit "Just now" :=
  ⟨(relative_time_buckets dayNumberDate 125999 0 125 (by decide)).2.2.1
      (by decide) (by decide),
   by decide,
   (relative_time_buckets dayNumberDate 0 5000 (-5) (by decide)).2.1 (by decide)⟩

/-! ## Mutations that find nothing to update -/

theorem idIs_false_defined (p : JsVal) (postId : JsString) (h : idIs p postId = .ok false) :
    p ≠ JsVal.null ∧ p ≠ JsVal.undefined := by
  constructor
  · intro hp
    subst hp
    simp [idIs, member] at h
  · intro hp
    subst hp
    simp [idIs, member] at h

/-- A list of the same length with the same entry at every index is the list. -/
theorem eq_of_getElem?_some (ps qs : List JsVal) (hlen : qs.length = ps.length)
    (hget : ∀ (i : Nat) (p : JsVal), ps[i]? = some p → qs[i]? = some p) : qs = ps := by
  apply List.ext_getElem?
  intro i
  by_cases hi : i < ps.length
  · rw [hget i ps[i] (List.getElem?_eq_getElem hi), List.getElem?_eq_getElem hi]
  · rw [List.getElem?_eq_none (by omega), List.getElem?_eq_none (by omega)]

/-- C25: a successful mutation for a post id that no post of the cached list has
leaves the list unchanged: the like success handler and the comment success
handler both end normally and leave a list equal to the one before, so the
returned post is not inserted; the like handler leaves the whole state as it
was. -/
theorem absent_id_leaves_list (postId : JsString) (likes updatedPost : JsVal)
    (ps : List JsVal) (s : PostState) (hcache : s.posts = .arr ps)
    (habsent : ∀ p ∈ ps, idIs p postId = .ok false) :
    likeOnSuccess postId likes s = (.ok (), s) ∧
    (commentOnSuccess postId updatedPost s).1 = .ok () ∧
    (commentOnSuccess postId updatedPost s).2.posts = .arr ps := by
  have hps : ∀ p ∈ ps, p ≠ JsVal.null ∧ p ≠ JsVal.undefined :=
    fun p hp => idIs_false_defined p postId (habsent p hp)
  constructor
  · obtain ⟨qs, hqs, hlen, hget⟩ := likeUpdater_entries postId likes ps hps
    have hqp : qs = ps := eq_of_getElem?_some ps qs hlen
      (fun i p hi => (hget i p hi).2 (habsent p (List.getElem?_mem hi)))
    rw [likeOnSuccess_run postId likes ps qs s hcache hqs, hqp, ← hcache]
  · obtain ⟨qs, hqs, hlen, hget⟩ := commentUpdater_arr postId updatedPost ps hps
    have hqp : qs = ps := eq_of_getElem?_some ps qs hlen
      (fun i p hi => (hget i p hi).2 (habsent p (List.getElem?_mem hi)))
    rw [commentOnSuccess_run postId updatedPost ps qs s hcache hqs, hqp]
    exact ⟨rfl, rfl⟩

/-- Witness of C25: the post "p1" is cached and the mutations are for "p9". -/
theorem absent_id_leaves_list_witness :
    likeOnSuccess (lit "p9") (.arr [.str (lit "u2")]) (cacheOf (.arr [scenarioPost]))
      = (.ok (), cacheOf (.arr [scenarioPost])) ∧
    (commentOnSuccess (lit "p9") scenarioReturned (cacheOf (.arr [scenarioPost]))).1
      = .ok () ∧
    (commentOnSuccess (lit "p9") scenarioReturned (cacheOf (.arr [scenarioPost]))).2.posts
      = .arr [scenarioPost] :=
  absent_id_leaves_list (lit "p9") (.arr [.str (lit "u2")]) scenarioReturned [scenarioPost]
    (cacheOf (.arr [scenarioPost])) rfl
    (by
      intro p hp
      simp only [List.mem_singleton] at hp
      subst hp
      rfl)

/-- C26: when the posts cache is not loaded, its value `undefined`, the success
handlers of the like and the comment mutation do not throw and leave it
`undefined`; the like handler changes nothing at all. -/
theorem unloaded_cache_stays_undefined (postId : JsString) (likes updatedPost : JsVal)
    (s : PostState) (hcache : s.posts = .undefined) :
    likeOnSuccess postId likes s = (.ok (), s) ∧
    (commentOnSuccess postId updatedPost s).1 = .ok () ∧
    (commentOnSuccess postId updatedPost s).2.posts = .undefined := by
  refine ⟨?_, ?_, ?_⟩
  · simp [likeOnSuccess, setQueryData, hcache, likeUpdater, optionalMap]
  · simp [commentOnSuccess, setQueryData, setCommentText, showToast, hcache, commentUpdater,
      optionalMap]
  · simp [commentOnSuccess, setQueryData, setCommentText, showToast, hcache, commentUpdater,
      optionalMap]

/-- Witness of C26: a state whose cached posts are `undefined`. -/
theorem unloaded_cache_stays_undefined_witness :
    likeOnSuccess (lit "p1") (.arr [.str (lit "u2")]) (cacheOf .undefined)
      = (.ok (), cacheOf .undefined) ∧
    (commentOnSuccess (lit "p1") scenarioReturned (cacheOf .undefined)).1 = .ok () ∧
    (commentOnSuccess (lit "p1") scenarioReturned (cacheOf .undefined)).2.posts
      = .undefined :=
  unloaded_cache_stays_undefined (lit "p1") (.arr [.str (lit "u2")]) scenarioReturned
    (cacheOf .undefined) rfl

/-! ## The two handlers compared -/

/-- What `handleShowFollowers` leaves of the following state, and the reverse. -/
theorem handlers_frame (net : Nat → JsString → FetchResult) (order : List Nat)
    (user : JsVal) (w : World) :
    ((handleShowFollowers net order user w).2.page.followingData = w.page.followingData ∧
     (handleShowFollowers net order user w).2.page.isLoadingFollowing
       = w.page.isLoadingFollowing ∧
     (handleShowFollowers net order user w).2.page.showFollowingModal
       = w.page.showFollowingModal) ∧
    ((handleShowFollowing net order user w).2.page.followersData = w.page.followersData ∧
     (handleShowFollowing net order user w).2.page.isLoadingFollowers
       = w.page.isLoadingFollowers ∧
     (handleShowFollowing net order user w).2.page.showFollowersModal
       = w.page.showFollowersModal) := by
  cases hu : truthy user with
  | false =>
    rw [handleShowFollowers_not_loaded net order user w hu,
      handleShowFollowing_not_loaded net order user w hu]
    exact ⟨⟨rfl, rfl, rfl⟩, ⟨rfl, rfl, rfl⟩⟩
  | true =>
    obtain ⟨r1, h1⟩ := member_of_truthy user (lit "followers") hu
    obtain ⟨r2, h2⟩ := member_of_truthy user (lit "following") hu
    rw [handleShowFollowers_run net order user r1 w hu h1,
      handleShowFollowing_run net order user r2 w hu h2]
    exact ⟨⟨rfl, rfl, rfl⟩, ⟨rfl, rfl, rfl⟩⟩

/-- C28: `handleShowFollowers` and `handleShowFollowing` compute the same
function. For every relation value, network and order of completion, the list
`handleShowFollowing` stores from `following` is the list `handleShowFollowers`
stores from the same value as `followers`, after the same requests; and each
writes its own list, loading flag and modal flag only, leaving those of the
other relation as they were. -/
theorem followers_following_same_function (net : Nat → JsString → FetchResult)
    (order : List Nat) (userA userB rel : JsVal) (w : World)
    (hA : truthy userA = true) (hB : truthy userB = true)
    (hfollowers : member userA (lit "followers") = .ok rel)
    (hfollowing : member userB (lit "following") = .ok rel) :
    (handleShowFollowing net order userB w).2.page.followingData
      = (handleShowFollowers net order userA w).2.page.followersData ∧
    (handleShowFollowing net order userB w).2.requests
      = (handleShowFollowers net order userA w).2.requests ∧
    (handleShowFollowing net order userB w).2.page.isLoadingFollowing
      = (handleShowFollowers net order userA w).2.page.isLoadingFollowers ∧
    (handleShowFollowing net order userB w).2.page.showFollowingModal
      = (handleShowFollowers net order userA w).2.page.showFollowersModal ∧
    ((handleShowFollowers net order userA w).2.page.followingData = w.page.followingData ∧
     (handleShowFollowers net order userA w).2.page.isLoadingFollowing
       = w.page.isLoadingFollowing ∧
     (handleShowFollowers net order userA w).2.page.showFollowingModal
       = w.page.showFollowingModal) ∧
    ((handleShowFollowing net order userB w).2.page.followersData = w.page.followersData ∧
     (handleShowFollowing net order userB w).2.page.isLoadingFollowers
       = w.page.isLoadingFollowers ∧
     (handleShowFollowing net order userB w).2.page.showFollowersModal
       = w.page.showFollowersModal) := by
  refine ⟨?_, ?_, ?_, ?_, (handlers_frame net order userA w).1,
    (handlers_frame net order userB w).2⟩
  all_goals
    rw [handleShowFollowers_run net order userA rel w hA hfollowers,
      handleShowFollowing_run net order userB rel w hB hfollowing]

/-- Witness of C28: a profile with the ids "u1" and "u2" as followers and as
following, the first request rejected. -/
theorem followers_following_same_function_witness :
    (handleShowFollowing firstFails [1, 0]
        (profileWith (.arr [.str (lit "u1"), .str (lit "u2")])) initialWorld).2.page.followingData
      = (handleShowFollowers firstFails [1, 0]
        (profileWith (.arr [.str (lit "u1"), .str (lit "u2")])) initialWorld).2.page.followersData ∧
    (handleShowFollowing firstFails [1, 0]
        (profileWith (.arr [.str (lit "u1"), .str (lit "u2")])) initialWorld).2.page.followingData
      = [stubUser (lit "u1"), sampleBob] :=
  ⟨(followers_following_same_function firstFails [1, 0]
      (profileWith (.arr [.str (lit "u1"), .str (lit "u2")]))
      (profileWith (.arr [.str (lit "u1"), .str (lit "u2")]))
      (.arr [.str (lit "u1"), .str (lit "u2")]) initialWorld rfl rfl rfl rfl).1, rfl⟩

/-! ## Submitting a comment -/

theorem dropWhile_reverse_ne_nil (p : Nat → Bool) (a : Nat) (t : List Nat)
    (ha : p a = false) : ((a :: t).reverse.dropWhile p) ≠ [] := by
  intro h
  have hall := List.dropWhile_eq_nil_iff.mp h
  have := hall a (by simp)
  rw [ha] at this
  cases this

/-- A string trims to the empty string exactly when all its code units are
white space. -/
theorem trim_eq_nil_iff (s : JsString) : trim s = [] ↔ ∀ c ∈ s, isWhiteSpace c = true := by
  unfold trim
  constructor
  · intro h
    have h1 : (s.dropWhile isWhiteSpace).reverse.dropWhile isWhiteSpace = [] := by
      simpa using h
    cases hd : s.dropWhile isWhiteSpace with
    | nil => exact List.dropWhile_eq_nil_iff.mp hd
    | cons a t =>
      have ha : isWhiteSpace a = false := by
        have := List.head_dropWhile_not isWhiteSpace s (by rw [hd]; simp)
        simpa [hd] using this
      rw [hd] at h1
      exact absurd h1 (dropWhile_reverse_ne_nil isWhiteSpace a t ha)
  · intro h
    have : s.dropWhile isWhiteSpace = [] := List.dropWhile_eq_nil_iff.mpr h
    simp [this]

/-- C27: `handleCommentSubmit` starts the comment mutation if and only if the
comment text is not empty after trimming. For a text that is empty or all white
space no request is sent and the state does not change; for every other text
one request is sent, its body the text as typed, untrimmed, and the state
afterwards is what `addComment` makes of that request's outcome. -/
theorem comment_sent_iff_not_blank (platform : JsError → JsString) (postId : JsString)
    (net : Request → FetchResult) (s : PostState) :
    (trim s.commentText = [] ↔ ∀ c ∈ s.commentText, isWhiteSpace c = true) ∧
    ((handleCommentSubmit platform postId net s).1
        = .ok { defaultPrevented := true, sent := [] } ↔ trim s.commentText = []) ∧
    (trim s.commentText = [] →
      handleCommentSubmit platform postId net s
        = (.ok { defaultPrevented := true, sent := [] }, s)) ∧
    (trim s.commentText ≠ [] →
      (handleCommentSubmit platform postId net s).1
        = .ok { defaultPrevented := true,
                sent := [{ method := lit "POST",
                           url := lit "/api/posts/comment/" ++ postId,
                           headers := [(lit "Content-Type", lit "application/json")],
                           body := some (.obj [(lit "text", .str s.commentText)]) }] } ∧
      (handleCommentSubmit platform postId net s).2
        = (addComment platform postId (net (commentRequest postId s.commentText)) s).2) := by
  have hblank : trim s.commentText = [] →
      handleCommentSubmit platform postId net s
        = (.ok { defaultPrevented := true, sent := [] }, s) := by
    intro h
    simp [handleCommentSubmit, truthy, h]
  have hsent : trim s.commentText ≠ [] →
      handleCommentSubmit platform postId net s
        = (.ok { defaultPrevented := true, sent := [commentRequest postId s.commentText] },
           (addComment platform postId (net (commentRequest postId s.commentText)) s).2) := by
    intro h
    simp [handleCommentSubmit, truthy, h]
  refine ⟨trim_eq_nil_iff s.commentText, ⟨?_, fun h => by rw [hblank h]⟩, hblank, ?_⟩
  · intro h
    by_contra hne
    rw [hsent hne] at h
    simp at h
  · intro hne
    rw [hsent hne]
    exact ⟨rfl, rfl⟩

/-- Witness of C27: the text " hi " is sent as typed, and the text of three
spaces is not sent. -/
theorem comment_sent_iff_not_blank_witness :
    (handleCommentSubmit chromeMessages (lit "p1") rejectsAll (typed (lit " hi "))).1
      = .ok { defaultPrevented := true,
              sent := [{ method := lit "POST",
                         url := lit "/api/posts/comment/" ++ lit "p1",
                         headers := [(lit "Content-Type", lit "application/json")],
                         body := some (.obj [(lit "text", .str (typed (lit " hi ")).commentText)]) }] } ∧
    handleCommentSubmit chromeMessages (lit "p1") rejectsAll (typed (lit "   "))
      = (.ok { defaultPrevented := true, sent := [] }, typed (lit "   ")) :=
  ⟨((comment_sent_iff_not_blank chromeMessages (lit "p1") rejectsAll
      (typed (lit " hi "))).2.2.2 (by decide)).1,
   (comment_sent_iff_not_blank chromeMessages (lit "p1") rejectsAll
      (typed (lit "   "))).2.2.1 (by decide)⟩

/-! ## Recent searches -/

/-- What a search with a query that is not blank leaves as recent searches. -/
theorem search_recent (lower : JsString → JsString) (q : JsString) (s : SearchState)
    (hq : trim q ≠ []) :
    (search lower q s).recentSearches =
      if trim q ∈ s.recentSearches then s.recentSearches
      else trim q :: s.recentSearches.take 4 := by
  by_cases hmem : trim q ∈ s.recentSearches
  · simp [search, handleSearch, currentState, truthy, hq, hmem, Eff.tryFinally, Eff.tryCatch,
      setLoading, setResults, setRecentSearches]
  · simp [search, handleSearch, currentState, truthy, hq, hmem, Eff.tryFinally, Eff.tryCatch,
      setLoading, setResults, setRecentSearches]

/-- A search with a blank query changes nothing but the query. -/
theorem search_blank (lower : JsString → JsString) (q : JsString) (s : SearchState)
    (hq : trim q = []) : (search lower q s).recentSearches = s.recentSearches := by
  simp [search, handleSearch, currentState, truthy, hq]

/-- One search keeps the recent searches duplicate-free and at most 5 long. -/
theorem search_keeps_invariant (lower : JsString → JsString) (q : JsString) (s : SearchState)
    (hnodup : s.recentSearches.Nodup) (hlen : s.recentSearches.length ≤ 5) :
    (search lower q s).recentSearches.Nodup ∧ (search lower q s).recentSearches.length ≤ 5 := by
  by_cases hq : trim q = []
  · rw [search_blank lower q s hq]
    exact ⟨hnodup, hlen⟩
  · rw [search_recent lower q s hq]
    by_cases hmem : trim q ∈ s.recentSearches
    · simp only [hmem, if_true]
      exact ⟨hnodup, hlen⟩
    · simp only [hmem, if_false]
      constructor
      · refine List.nodup_cons.mpr ⟨fun h => hmem (List.mem_of_mem_take h), ?_⟩
        exact hnodup.sublist (List.take_sublist 4 _)
      · simp only [List.length_cons, List.length_take]
        omega

/-- Every sequence of searches keeps the invariant. -/
theorem searches_keep_invariant (lower : JsString → JsString) (qs : List JsString) :
    ∀ s : SearchState, s.recentSearches.Nodup → s.recentSearches.length ≤ 5 →
      (searches lower qs s).recentSearches.Nodup ∧
      (searches lower qs s).recentSearches.length ≤ 5 := by
  induction qs with
  | nil => intro s h1 h2; exact ⟨h1, h2⟩
  | cons q rest ih =>
    intro s h1 h2
    obtain ⟨h3, h4⟩ := search_keeps_invariant lower q s h1 h2
    exact ih (search lower q s) h3 h4

theorem initial_recent_invariant :
    initialSearchState.recentSearches.Nodup ∧ initialSearchState.recentSearches.length ≤ 5 := by
  constructor
  · show [lit "drama", lit "action", lit "Christopher Nolan"].Nodup
    decide
  · decide

/-- C23: saving to recent searches keeps the list duplicate-free and at most 5
long. From the initial three terms, after any sequence of searches and one more
search with a query that is not blank, the list contains the trimmed query of
that search, has no duplicates and at most 5 entries; when the trimmed
query was already in the list the list is unchanged, and otherwise it is the
trimmed query followed by the first 4 entries of the list before. -/
theorem recent_searches_distinct_at_most_five (lower : JsString → JsString)
    (qs : List JsString) (q : JsString) (hq : trim q ≠ []) :
    (searches lower (qs ++ [q]) initialSearchState).recentSearches.Nodup ∧
    (searches lower (qs ++ [q]) initialSearchState).recentSearches.length ≤ 5 ∧
    trim q ∈ (searches lower (qs ++ [q]) initialSearchState).recentSearches ∧
    (trim q ∈ (searches lower qs initialSearchState).recentSearches →
      (searches lower (qs ++ [q]) initialSearchState).recentSearches
        = (searches lower qs initialSearchState).recentSearches) ∧
    (trim q ∉ (searches lower qs initialSearchState).recentSearches →
      (searches lower (qs ++ [q]) initialSearchState).recentSearches
        = trim q :: (searches lower qs initialSearchState).recentSearches.take 4) := by
  have hstep : searches lower (qs ++ [q]) initialSearchState
      = search lower q (searches lower qs initialSearchState) := by
    simp [searches, List.foldl_append]
  obtain ⟨h1, h2⟩ := searches_keep_invariant lower (qs ++ [q]) initialSearchState
    initial_recent_invariant.1 initial_recent_invariant.2
  refine ⟨h1, h2, ?_, ?_, ?_⟩
  · rw [hstep, search_recent lower q _ hq]
    by_cases hmem : trim q ∈ (searches lower qs initialSearchState).recentSearches
    · simp [hmem]
    · simp [hmem]
  · intro hmem
    rw [hstep, search_recent lower q _ hq]
    simp [hmem]
  · intro hmem
    rw [hstep, search_recent lower q _ hq]
    simp [hmem]

/-- Witness of C23: the searches " comedy " and then "drama", from the initial
list. -/
theorem recent_searches_distinct_at_most_five_witness :
    (searches id ([lit " comedy "] ++ [lit "drama"]) initialSearchState).recentSearches.Nodup ∧
    (searches id ([lit " comedy "] ++ [lit "drama"]) initialSearchState).recentSearches.length
      ≤ 5 ∧
    (searches id ([lit " comedy "] ++ [lit "drama"]) initialSearchState).recentSearches
      = [lit "comedy", lit "drama", lit "action", lit "Christopher Nolan"] :=
  have h := recent_searches_distinct_at_most_five id [lit " comedy "] (lit "drama")
    (by decide)
  ⟨h.1, h.2.1, by decide⟩

/-! ## Grouping notifications -/

theorem addToGroup_keys (g : Groups) (d : JsString) (n : JsVal) :
    (addToGroup g d n).map Prod.fst =
      if d ∈ g.map Prod.fst then g.map Prod.fst else g.map Prod.fst ++ [d] := by
  induction g with
  | nil => simp [addToGroup]
  | cons kv rest ih =>
    obtain ⟨k, ms⟩ := kv
    by_cases hk : k = d
    · simp [addToGroup, hk]
    · have hdk : ¬ d = k := fun h => hk h.symm
      by_cases hmem : d ∈ rest.map Prod.fst
      · simp only [addToGroup, hk, if_false, List.map_cons, ih, hmem, if_true, List.mem_cons,
          or_true]
      · simp only [addToGroup, hk, if_false, List.map_cons, ih, hmem, List.mem_cons, hdk,
          or_self, List.cons_append]

theorem groupAt_addToGroup (g : Groups) (d key : JsString) (n : JsVal) :
    groupAt (addToGroup g d n) key =
      if key = d then some ((groupAt g d).getD [] ++ [n]) else groupAt g key := by
  induction g with
  | nil =>
    by_cases hk : key = d
    · simp [addToGroup, groupAt, hk]
    · have : ¬ d = key := fun h => hk h.symm
      simp [addToGroup, groupAt, hk, this]
  | cons kv rest ih =>
    obtain ⟨k, ms⟩ := kv
    by_cases hkd : k = d
    · subst hkd
      by_cases hk : key = k
      · simp [addToGroup, groupAt, hk]
      · have : ¬ k = key := fun h => hk h.symm
        simp [addToGroup, groupAt, hk, this]
    · by_cases hkk : k = key
      · subst hkk
        simp [addToGroup, groupAt, hkd]
      · simp only [addToGroup, hkd, if_false, groupAt, hkk, ih]

theorem groupAt_of_mem (g : Groups) (hnodup : (g.map Prod.fst).Nodup) (k : JsString)
    (ms : List JsVal) (hmem : (k, ms) ∈ g) : groupAt g k = some ms := by
  induction g with
  | nil => simp at hmem
  | cons kv rest ih =>
    obtain ⟨k1, ms1⟩ := kv
    simp only [List.map_cons, List.nodup_cons] at hnodup
    rcases List.mem_cons.mp hmem with h | h
    · cases h
      simp [groupAt]
    · have hne : ¬ k1 = k := by
        intro hk
        subst hk
        exact hnodup.1 (List.mem_map.mpr ⟨(k1, ms), h, rfl⟩)
      simp only [groupAt, hne, if_false]
      exact ih hnodup.2 h

theorem mem_of_groupAt (g : Groups) (k : JsString) (ms : List JsVal)
    (h : groupAt g k = some ms) : (k, ms) ∈ g := by
  induction g with
  | nil => simp [groupAt] at h
  | cons kv rest ih =>
    obtain ⟨k1, ms1⟩ := kv
    by_cases hk : k1 = k
    · subst hk
      simp [groupAt] at h
      subst h
      simp
    · simp only [groupAt, hk, if_false] at h
      exact List.mem_cons_of_mem _ (ih h)

theorem addToGroup_join (g : Groups) (d : JsString) (n : JsVal) :
    ((addToGroup g d n).map Prod.snd).flatten.Perm (n :: (g.map Prod.snd).flatten) := by
  induction g with
  | nil => simp [addToGroup]
  | cons kv rest ih =>
    obtain ⟨k, ms⟩ := kv
    by_cases hk : k = d
    · simp only [addToGroup, hk, if_true, List.map_cons, List.flatten_cons, List.append_assoc,
        List.singleton_append]
      exact List.perm_middle
    · simp only [addToGroup, hk, if_false, List.map_cons, List.flatten_cons]
      exact ((List.Perm.append_left ms ih).trans List.perm_middle)

theorem dateKeyOf_step (localeDate : JsVal → JsString) (g : Groups) (n : JsVal)
    (h1 : n ≠ JsVal.null) (h2 : n ≠ JsVal.undefined) :
    groupStep localeDate g n = .ok (addToGroup g (dateKeyOf localeDate n) n) := by
  cases n with
  | undefined => exact absurd rfl h2
  | null => exact absurd rfl h1
  | obj props => rfl
  | bool b => rfl
  | num k => rfl
  | str s => rfl
  | arr items => rfl

/-- One run of the reducer keeps the description of the groups object. -/
theorem GroupsOf.step {localeDate : JsVal → JsString} {pre : List JsVal} {g : Groups}
    (h : GroupsOf localeDate pre g) (n : JsVal) :
    GroupsOf localeDate (pre ++ [n]) (addToGroup g (dateKeyOf localeDate n) n) := by
  obtain ⟨hnodup, hat, hperm⟩ := h
  refine ⟨?_, ?_, ?_⟩
  · rw [addToGroup_keys]
    by_cases hmem : dateKeyOf localeDate n ∈ g.map Prod.fst
    · simp only [hmem, if_true]
      exact hnodup
    · simp only [hmem, if_false]
      exact List.nodup_append.mpr ⟨hnodup, by simp, by
        intro a ha hb
        simp only [List.mem_singleton] at hb
        subst hb
        exact hmem ha⟩
  · intro k
    rw [groupAt_addToGroup]
    by_cases hk : k = dateKeyOf localeDate n
    · subst hk
      have hg : (groupAt g (dateKeyOf localeDate n)).getD []
          = pre.filter (fun m => decide (dateKeyOf localeDate m = dateKeyOf localeDate n)) := by
        rw [hat]
        cases hf : pre.filter
            (fun m => decide (dateKeyOf localeDate m = dateKeyOf localeDate n)) with
        | nil => simp
        | cons a t => simp
      simp [hg, List.filter_append]
    · have hn : ¬ dateKeyOf localeDate n = k := fun h => hk h.symm
      simp [hk, hat, List.filter_append, hn]
  · exact (addToGroup_join g _ n).trans
      ((List.Perm.cons n hperm).trans (List.perm_append_singleton n pre).symm)

/-- The reduce over notifications that are not nullish ends normally, in the
groups object described by all the notifications. -/
theorem reduceGroups_groupsOf (localeDate : JsVal → JsString) (rest : List JsVal) :
    ∀ (pre : List JsVal) (g : Groups), GroupsOf localeDate pre g →
      (∀ n ∈ rest, n ≠ JsVal.null ∧ n ≠ JsVal.undefined) →
      ∃ out, reduceGroups localeDate rest g = .ok out ∧
        GroupsOf localeDate (pre ++ rest) out := by
  induction rest with
  | nil =>
    intro pre g h _
    exact ⟨g, rfl, by simpa using h⟩
  | cons n tail ih =>
    intro pre g h hdef
    obtain ⟨out, hout, hgroups⟩ := ih (pre ++ [n]) _ (h.step n)
      (fun m hm => hdef m (List.mem_cons_of_mem _ hm))
    refine ⟨out, ?_, by simpa using hgroups⟩
    simp [reduceGroups, dateKeyOf_step localeDate g n (hdef n (by simp)).1 (hdef n (by simp)).2,
      hout]

theorem groupsOf_nil (localeDate : JsVal → JsString) : GroupsOf localeDate [] [] := by
  refine ⟨by simp, fun k => by simp [groupAt], by simp⟩

/-- C22: grouping notifications by date is a partition that keeps order. For
every notification list the grouping ends normally; the keys of the groups are
distinct; the groups together hold exactly the notifications of the list, each
as often as the list does; the group under a key is not empty and is the list of
the notifications whose `createdAt` has that date string, in the order of the
list, so every notification is in the group of its own date string and in no
other; and an undefined notification list gives no groups. -/
theorem grouping_is_ordered_partition (localeDate : JsVal → JsString) (ns : List JsVal)
    (hns : ∀ n ∈ ns, n ≠ JsVal.null ∧ n ≠ JsVal.undefined) :
    (∃ groups, groupedNotifications localeDate (.arr ns) = .ok groups ∧
      (groups.map Prod.fst).Nodup ∧
      ((groups.map Prod.snd).flatten).Perm ns ∧
      (∀ k ms, (k, ms) ∈ groups →
        ms ≠ [] ∧ ms = ns.filter (fun n => decide (dateKeyOf localeDate n = k)) ∧
        (∀ m ∈ ms, dateKeyOf localeDate m = k) ∧ ms.Sublist ns) ∧
      (∀ n ∈ ns, ∃ ms, (dateKeyOf localeDate n, ms) ∈ groups ∧ n ∈ ms)) ∧
    groupedNotifications localeDate .undefined = .ok [] := by
  refine ⟨?_, rfl⟩
  obtain ⟨groups, hrun, hnodup, hat, hperm⟩ :=
    reduceGroups_groupsOf localeDate ns [] [] (groupsOf_nil localeDate) hns
  simp only [List.nil_append] at hat hperm
  refine ⟨groups, by simpa [groupedNotifications] using hrun, hnodup, hperm, ?_, ?_⟩
  · intro k ms hmem
    have h1 := groupAt_of_mem groups hnodup k ms hmem
    rw [hat k] at h1
    cases hf : ns.filter (fun n => decide (dateKeyOf localeDate n = k)) with
    | nil => simp [hf] at h1
    | cons a t =>
      simp only [hf, List.isEmpty_cons, Bool.false_eq_true, if_false, Option.some.injEq] at h1
      subst h1
      refine ⟨by simp, rfl, ?_, ?_⟩
      · intro m hm
        rw [← hf] at hm
        simpa using (List.mem_filter.mp hm).2
      · rw [← hf]
        exact List.filter_sublist ns
  · intro n hn
    have hin : n ∈ ns.filter (fun m => decide (dateKeyOf localeDate m = dateKeyOf localeDate n)) :=
      List.mem_filter.mpr ⟨hn, by simp⟩
    have h1 := hat (dateKeyOf localeDate n)
    cases hf : ns.filter
        (fun m => decide (dateKeyOf localeDate m = dateKeyOf localeDate n)) with
    | nil => rw [hf] at hin; simp at hin
    | cons a t =>
      simp only [hf, List.isEmpty_cons, Bool.false_eq_true, if_false] at h1
      exact ⟨_, mem_of_groupAt groups _ _ h1, by rw [← hf]; exact hin⟩

/-- Witness of C22: three notifications, the first and the third of the same
day. -/
theorem grouping_is_ordered_partition_witness :
    (∃ groups, groupedNotifications isoDay (.arr [notificationAt "n1" "2024-01-02T10:00:00Z",
          notificationAt "n2" "2024-01-03T09:00:00Z",
          notificationAt "n3" "2024-01-02T23:00:00Z"]) = .ok groups ∧
      (groups.map Prod.fst).Nodup ∧
      ((groups.map Prod.snd).flatten).Perm [notificationAt "n1" "2024-01-02T10:00:00Z",
          notificationAt "n2" "2024-01-03T09:00:00Z",
          notificationAt "n3" "2024-01-02T23:00:00Z"]) ∧
    groupedNotifications isoDay (.arr [notificationAt "n1" "2024-01-02T10:00:00Z",
          notificationAt "n2" "2024-01-03T09:00:00Z",
          notificationAt "n3" "2024-01-02T23:00:00Z"])
      = .ok [(lit "2024-01-02", [notificationAt "n1" "2024-01-02T10:00:00Z",
                                 notificationAt "n3" "2024-01-02T23:00:00Z"]),
             (lit "2024-01-03", [notificationAt "n2" "2024-01-03T09:00:00Z"])] :=
  ⟨match (grouping_is_ordered_partition isoDay [notificationAt "n1" "2024-01-02T10:00:00Z",
          notificationAt "n2" "2024-01-03T09:00:00Z",
          notificationAt "n3" "2024-01-02T23:00:00Z"]
        (by
          intro n hn
          simp only [List.mem_cons, List.mem_singleton, List.not_mem_nil, or_false] at hn
          rcases hn with rfl | rfl | rfl
          · exact ⟨fun h => (by cases h), fun h => (by cases h)⟩
          · exact ⟨fun h => (by cases h), fun h => (by cases h)⟩
          · exact ⟨fun h => (by cases h), fun h => (by cases h)⟩)).1 with
    | ⟨groups, h1, h2, h3, _⟩ => ⟨groups, h1, h2, h3⟩,
   rfl⟩

end ChillHub
